import Mathlib

/-!
Verification of the CSV-ingestion and price-analysis core of the
`usfoods-invoice-analyzer` repository.

The embedding conventions, used throughout:

* JavaScript `number` values that carry money/quantities are modelled as `ℚ`
  (exact arithmetic; the source performs plain IEEE arithmetic on values read
  from CSV text).  Integer quantities obtained with `parseInt` are `ℤ`.
* Invoice dates are modelled as `ℤ`: the source code only ever interprets a
  date string through the runtime's `new Date(s).getTime()`, an external
  facility; the embedding carries that epoch value directly.
* JavaScript's `Array.prototype.sort` with a numeric comparator is a stable
  sort w.r.t. the total preorder `compare(a,b) ≤ 0`; a stable sort of a list
  w.r.t. a total preorder is unique, so it is embedded as
  `List.insertionSort` (Mathlib's insertion sort is stable).
* A JavaScript `Map` preserves key-insertion order and `map.values()`
  enumerates in that order; it is embedded as an association list to which
  new keys are appended at the end.
-/

open List

/-! ### JavaScript string primitives -/

/-- JS `String.prototype.trim`: strip whitespace from both ends.
(JS strips the Unicode whitespace class; `Char.isWhitespace` covers the ASCII
whitespace that occurs in the invoice data.) -/
def jsTrim (s : String) : String :=
  ⟨((s.data.dropWhile Char.isWhitespace).reverse.dropWhile Char.isWhitespace).reverse⟩

/-- JS `String.prototype.includes`: substring test. -/
def jsIncludes (hay needle : String) : Bool :=
  decide (needle.data <:+: hay.data)

/-- Numeric value of a string of decimal digits. -/
def digitsVal (ds : List Char) : ℕ :=
  ds.foldl (fun n c => 10 * n + (c.toNat - 48)) 0

/-! ### csv-parser: pack-size parsing (`parsePackSize`)

The source matches the (trimmed, lowercased) pack-size string against five
anchored regular expressions in order.  Each regex is embedded as a committed
recursive-descent matcher over the character list.  For these particular
patterns the committed greedy parse is equivalent to the regex with
backtracking: after a maximal run of digits the following regex element can
never consume a digit, after a maximal run of whitespace it can never consume
whitespace, and a trailing `[a-z]+` must reach the end of the string. -/

structure PackSizeInfo where
  units : ℚ
  size : String
  unitType : String
  totalUnits : ℚ
  deriving DecidableEq

/-- A regex numeral `\d+(?:\.\d+)?`: the matched characters, its numeric value
(as produced by `parseFloat` on the matched group), and the remaining input.
If a dot is not followed by a digit the optional fraction matches nothing. -/
def numToken (cs : List Char) : Option (List Char × ℚ × List Char) :=
  let ds := cs.takeWhile Char.isDigit
  let rest := cs.dropWhile Char.isDigit
  if ds.isEmpty then none
  else
    match rest with
    | '.' :: r₂ =>
      let fs := r₂.takeWhile Char.isDigit
      let r₃ := r₂.dropWhile Char.isDigit
      if fs.isEmpty then some (ds, (digitsVal ds : ℚ), rest)
      else some (ds ++ '.' :: fs, (digitsVal ds : ℚ) + (digitsVal fs : ℚ) / 10 ^ fs.length, r₃)
    | _ => some (ds, (digitsVal ds : ℚ), rest)

/-- Regex `\s*`. -/
def skipWs (cs : List Char) : List Char := cs.dropWhile Char.isWhitespace

def isLowerAlpha (c : Char) : Bool := 'a' ≤ c && c ≤ 'z'

/-- Regex `([a-z]+)` (the input has already been lowercased). -/
def letterToken (cs : List Char) : Option (List Char × List Char) :=
  let ls := cs.takeWhile isLowerAlpha
  if ls.isEmpty then none else some (ls, cs.dropWhile isLowerAlpha)

/-- Pattern 1: `/^(\d+(?:\.\d+)?)\s*\/\s*(\d+(?:\.\d+)?)\s*([a-z]+)$/i`,
e.g. `"6/16.5 OZ"`. -/
def matchSlash (cs : List Char) : Option PackSizeInfo := do
  let (_, units, r₁) ← numToken cs
  match skipWs r₁ with
  | '/' :: r₂ =>
    let (szChars, sz, r₃) ← numToken (skipWs r₂)
    let (ls, r₄) ← letterToken (skipWs r₃)
    if r₄.isEmpty then
      some { units := units, size := ⟨szChars⟩, unitType := ⟨ls.map Char.toUpper⟩,
             totalUnits := units * sz }
    else none
  | _ => none

/-- Pattern 2: `/^(\d+(?:\.\d+)?)\s*([a-z]+)$/i`, e.g. `"25 LB"`. -/
def matchSimple (cs : List Char) : Option PackSizeInfo := do
  let (szChars, sz, r₁) ← numToken cs
  let (ls, r₂) ← letterToken (skipWs r₁)
  if r₂.isEmpty then
    some { units := 1, size := ⟨szChars⟩, unitType := ⟨ls.map Char.toUpper⟩, totalUnits := sz }
  else none

/-- Pattern 3: `/^(\d+)\s*(ea|each)$/i`, e.g. `"2000 EA"`.  The source stores
`parseInt(group).toString()` as the size. -/
def matchCount (cs : List Char) : Option PackSizeInfo :=
  let ds := cs.takeWhile Char.isDigit
  let r₁ := cs.dropWhile Char.isDigit
  if ds.isEmpty then none
  else
    let r₂ := skipWs r₁
    if r₂ = ['e', 'a'] ∨ r₂ = ['e', 'a', 'c', 'h'] then
      some { units := 1, size := Nat.repr (digitsVal ds), unitType := "EA",
             totalUnits := (digitsVal ds : ℚ) }
    else none

/-- Pattern 4: `/^(\d+)\s*\/\s*#(\d+)\s*(cn|can)$/i`, e.g. `"6/#10 CN"`. -/
def matchCan (cs : List Char) : Option PackSizeInfo :=
  let ds₁ := cs.takeWhile Char.isDigit
  let r₁ := cs.dropWhile Char.isDigit
  if ds₁.isEmpty then none
  else
    match skipWs r₁ with
    | '/' :: r₂ =>
      match skipWs r₂ with
      | '#' :: r₃ =>
        let ds₂ := r₃.takeWhile Char.isDigit
        let r₄ := r₃.dropWhile Char.isDigit
        if ds₂.isEmpty then none
        else
          let r₅ := skipWs r₄
          if r₅ = ['c', 'n'] ∨ r₅ = ['c', 'a', 'n'] then
            some { units := (digitsVal ds₁ : ℚ), size := ⟨'#' :: ds₂⟩, unitType := "CN",
                   totalUnits := (digitsVal ds₁ : ℚ) }
          else none
      | _ => none
    | _ => none

/-- Pattern 5: `/^(\d+\.\d+)\s*([a-z]+)$/i`, e.g. `"1.1 BU"` (the fraction is
mandatory here). -/
def matchDecimal (cs : List Char) : Option PackSizeInfo :=
  let ds := cs.takeWhile Char.isDigit
  let r₁ := cs.dropWhile Char.isDigit
  if ds.isEmpty then none
  else
    match r₁ with
    | '.' :: r₂ =>
      let fs := r₂.takeWhile Char.isDigit
      let r₃ := r₂.dropWhile Char.isDigit
      if fs.isEmpty then none
      else
        match letterToken (skipWs r₃) with
        | some (ls, r₄) =>
          if r₄.isEmpty then
            some { units := 1, size := ⟨ds ++ '.' :: fs⟩, unitType := ⟨ls.map Char.toUpper⟩,
                   totalUnits := (digitsVal ds : ℚ) + (digitsVal fs : ℚ) / 10 ^ fs.length }
          else none
        | none => none
    | _ => none

/-- `parsePackSize` from `src/lib/csv-parser.ts`: blank input short-circuits,
then the five patterns are tried in order on the trimmed lowercased string,
and an unmatched string falls back to `units 1 / totalUnits 1` with the
original string as the size. -/
def parsePackSize (packSize : String) : PackSizeInfo :=
  if packSize = "" ∨ jsTrim packSize = "" then
    { units := 1, size := "", unitType := "", totalUnits := 1 }
  else
    let normalized := (jsTrim packSize).data.map Char.toLower
    match matchSlash normalized with
    | some r => r
    | none =>
      match matchSimple normalized with
      | some r => r
      | none =>
        match matchCount normalized with
        | some r => r
        | none =>
          match matchCan normalized with
          | some r => r
          | none =>
            match matchDecimal normalized with
            | some r => r
            | none => { units := 1, size := packSize, unitType := "", totalUnits := 1 }

/-! ### csv-parser: `categorizeProduct` -/

/-- JS `String.prototype.toLowerCase` (ASCII; the product descriptions in the
invoice data are ASCII). -/
def jsToLower (s : String) : String := ⟨s.data.map Char.toLower⟩

/-- `categorizeProduct` from `src/lib/csv-parser.ts`. -/
def categorizeProduct (description : String) : String :=
  let desc := jsToLower description
  if jsIncludes desc "tomato" || jsIncludes desc "lettuce" || jsIncludes desc "onion" ||
      jsIncludes desc "pepper" || jsIncludes desc "orange" || jsIncludes desc "tomatillo" ||
      jsIncludes desc "fresh" || jsIncludes desc "produce" then "Produce"
  else if jsIncludes desc "beef" || jsIncludes desc "chicken" || jsIncludes desc "fish" ||
      jsIncludes desc "tilapia" || jsIncludes desc "protein" || jsIncludes desc "meat" then
    "Protein"
  else if jsIncludes desc "cheese" || jsIncludes desc "sour cream" || jsIncludes desc "milk" ||
      jsIncludes desc "dairy" || jsIncludes desc "cream" then "Dairy"
  else if jsIncludes desc "bag" || jsIncludes desc "container" || jsIncludes desc "wrap" ||
      jsIncludes desc "cup" || jsIncludes desc "supplies" then "Supplies"
  else if jsIncludes desc "juice" || jsIncludes desc "soda" || jsIncludes desc "water" ||
      jsIncludes desc "beverage" || jsIncludes desc "drink" then "Beverages"
  else "Dry Goods"

/-! ### Theorems for claims C5 and C9 -/

/-- C5: `parsePackSize` parses the three spec examples by pattern matching:
`"6/16.5 OZ"` gives 6 units of size "16.5" OZ with 99 total units, `"25 LB"`
gives a single 25-LB unit, and `"2000 EA"` gives 2000 each-units. -/
theorem parsePackSize_examples :
    parsePackSize "6/16.5 OZ" =
      { units := 6, size := "16.5", unitType := "OZ", totalUnits := 99 } ∧
    parsePackSize "25 LB" =
      { units := 1, size := "25", unitType := "LB", totalUnits := 25 } ∧
    parsePackSize "2000 EA" =
      { units := 1, size := "2000", unitType := "EA", totalUnits := 2000 } := by
  refine ⟨?_, ?_, ?_⟩ <;>
    · simp +decide [parsePackSize, jsTrim, matchSlash, matchSimple, matchCount, matchCan,
        matchDecimal, numToken, letterToken, skipWs, digitsVal, PackSizeInfo.mk.injEq]
      all_goals norm_num

/-- C9: `parsePackSize` is total by construction; blank input (empty or
whitespace-only) yields `⟨1, "", "", 1⟩`, and input matching none of the five
patterns yields `⟨1, original, "", 1⟩`. -/
theorem parsePackSize_total_fallback (s : String) :
    (jsTrim s = "" → parsePackSize s = { units := 1, size := "", unitType := "", totalUnits := 1 }) ∧
    (jsTrim s ≠ "" →
      matchSlash ((jsTrim s).data.map Char.toLower) = none →
      matchSimple ((jsTrim s).data.map Char.toLower) = none →
      matchCount ((jsTrim s).data.map Char.toLower) = none →
      matchCan ((jsTrim s).data.map Char.toLower) = none →
      matchDecimal ((jsTrim s).data.map Char.toLower) = none →
      parsePackSize s = { units := 1, size := s, unitType := "", totalUnits := 1 }) := by
  constructor
  · intro h
    simp [parsePackSize, h]
  · intro h h₁ h₂ h₃ h₄ h₅
    have hs : ¬(s = "" ∨ jsTrim s = "") := by
      rintro (rfl | h') <;> simp_all [jsTrim]
    simp only [parsePackSize, if_neg hs, h₁, h₂, h₃, h₄, h₅]

/-- Witness for C9 at the concrete non-matching input `"mixed 12"`. -/
theorem parsePackSize_total_fallback_witness :
    parsePackSize "mixed 12" = { units := 1, size := "mixed 12", unitType := "", totalUnits := 1 } ∧
    parsePackSize "   " = { units := 1, size := "", unitType := "", totalUnits := 1 } := by
  constructor
  · exact (parsePackSize_total_fallback "mixed 12").2 (by decide) (by decide) (by decide)
      (by decide) (by decide) (by decide)
  · exact (parsePackSize_total_fallback "   ").1 (by decide)

/-! ### Generic keyed-upsert fold

Both the CSV parser and the price analyzer accumulate records into a JS `Map`
keyed by a string, creating an entry on first sight of a key and updating the
existing entry otherwise.  This is embedded once, generically: `kf` reads the
key of a stored entry, `ib` the key of an incoming item, `skel` builds the
fresh entry that the source inserts before processing the item, and `upd`
applies the per-item mutation. -/

def upsertStep {α β : Type} (kf : α → String) (ib : β → String) (skel : β → α)
    (upd : α → β → α) (acc : List α) (b : β) : List α :=
  if acc.any (fun a => kf a == ib b) then
    acc.map (fun a => if kf a == ib b then upd a b else a)
  else acc ++ [upd (skel b) b]

def upsertFold {α β : Type} (kf : α → String) (ib : β → String) (skel : β → α)
    (upd : α → β → α) (acc : List α) (l : List β) : List α :=
  l.foldl (upsertStep kf ib skel upd) acc

/-! ### csv-parser: row model and invoice assembly -/

/-- The columns of a US Foods CSV row that the ingestion pipeline reads
(`USFoodsInvoiceRow`; the address columns, which the pipeline never reads, are
omitted).  Numeric cells stay strings, as in the CSV, and are interpreted by
`parseFloat`/`parseInt` during assembly.  `DocumentDate` is the epoch value of
the date cell (dates are only ever consumed through `new Date(...)`). -/
structure USRow where
  DocumentNumber : String
  DocumentType : String
  DocumentDate : Int
  CustomerNumber : String
  CustomerName : String
  OrderNumber : String
  NetAmountAfterAdjustment : String
  NetAmountBeforeAdj : String
  DeliveryAdjustment : String
  PaymentTerms : String
  DateOrdered : String
  DateShipped : String
  USFSalesLocation : String
  USFSalesRep : String
  ProductNumber : String
  ProductDescription : String
  ProductLabel : String
  PackingSize : String
  Weight : String
  QtyOrder : String
  QtyShip : String
  QtyAdjust : String
  PricingUnit : String
  UnitPrice : String
  ExtendedPrice : String
  deriving DecidableEq

/-- Magnitude part of JS `parseFloat`: longest numeric prefix
`DecimalDigits [. DecimalDigits?] ExponentPart? | . DecimalDigits
ExponentPart?`; `none` when no numeric prefix exists (JS `NaN`). -/
def jsParseFloatMag (cs : List Char) : Option ℚ :=
  let ds := cs.takeWhile Char.isDigit
  let r₁ := cs.dropWhile Char.isDigit
  if ds.isEmpty then
    match cs with
    | '.' :: r₂ =>
      let fs := r₂.takeWhile Char.isDigit
      let r₃ := r₂.dropWhile Char.isDigit
      if fs.isEmpty then none
      else some ((applyExp ((digitsVal fs : ℚ) / 10 ^ fs.length)) r₃)
    | _ => none
  else
    match r₁ with
    | '.' :: r₂ =>
      let fs := r₂.takeWhile Char.isDigit
      let r₃ := r₂.dropWhile Char.isDigit
      some (applyExp ((digitsVal ds : ℚ) + (digitsVal fs : ℚ) / 10 ^ fs.length) r₃)
    | _ => some (applyExp (digitsVal ds : ℚ) r₁)
where
  /-- An optional exponent part `e|E sign? DecimalDigits`; an incomplete
  exponent is not consumed. -/
  applyExp (q : ℚ) : List Char → ℚ := fun cs =>
    match cs with
    | 'e' :: r => applySignedExp q r
    | 'E' :: r => applySignedExp q r
    | _ => q
  applySignedExp (q : ℚ) : List Char → ℚ := fun r =>
    match r with
    | '-' :: r₂ =>
      let es := r₂.takeWhile Char.isDigit
      if es.isEmpty then q else q / 10 ^ digitsVal es
    | '+' :: r₂ =>
      let es := r₂.takeWhile Char.isDigit
      if es.isEmpty then q else q * 10 ^ digitsVal es
    | _ =>
      let es := r.takeWhile Char.isDigit
      if es.isEmpty then q else q * 10 ^ digitsVal es

/-- JS `parseFloat`: skip leading whitespace, optional sign, numeric prefix.
(Textual `"Infinity"`, which `ℚ` cannot carry, is treated as unparseable; it
does not occur in invoice cells.) -/
def jsParseFloat (s : String) : Option ℚ :=
  let cs := s.data.dropWhile Char.isWhitespace
  match cs with
  | '-' :: r => (jsParseFloatMag r).map (fun q => -q)
  | '+' :: r => jsParseFloatMag r
  | _ => jsParseFloatMag cs

/-- `parseFloat(x) || 0` as used throughout the parser: an unparseable cell
(JS `NaN`, falsy) becomes 0, and a parsed 0 stays 0. -/
def jsParseFloatOr0 (s : String) : ℚ := (jsParseFloat s).getD 0

/-- JS `parseInt` with no radix argument on decimal cells: skip whitespace,
optional sign, longest digit prefix.  (The automatic radix-16 detection for
`0x` prefixes never fires on quantity cells and is not modelled.) -/
def jsParseInt (s : String) : Option Int :=
  let cs := s.data.dropWhile Char.isWhitespace
  match cs with
  | '-' :: r => (digitsPrefix r).map (fun n => -(n : Int))
  | '+' :: r => (digitsPrefix r).map (fun n => (n : Int))
  | _ => (digitsPrefix cs).map (fun n => (n : Int))
where
  digitsPrefix : List Char → Option ℕ := fun cs =>
    let ds := cs.takeWhile Char.isDigit
    if ds.isEmpty then none else some (digitsVal ds)

/-- `parseInt(x) || 0`. -/
def jsParseIntOr0 (s : String) : Int := (jsParseInt s).getD 0

structure ParsedLineItem where
  productNumber : String
  productDescription : String
  productLabel : String
  packingSize : String
  weight : ℚ
  qtyOrdered : Int
  qtyShipped : Int
  qtyAdjusted : Int
  pricingUnit : String
  unitPrice : ℚ
  extendedPrice : ℚ
  deriving DecidableEq

structure ParsedInvoice where
  documentNumber : String
  documentType : String
  documentDate : Int
  customerNumber : String
  customerName : String
  orderNumber : String
  netAmountAfterAdjustment : ℚ
  netAmountBeforeAdjustment : ℚ
  deliveryAdjustment : ℚ
  paymentTerms : String
  dateOrdered : String
  dateShipped : String
  usfSalesLocation : String
  usfSalesRep : String
  lineItems : List ParsedLineItem
  rawData : List USRow
  deriving DecidableEq

/-- The line item built from a row inside `processInvoiceData`.
(`row['Product Label'] || ''` is the identity on strings.) -/
def mkLineItem (row : USRow) : ParsedLineItem :=
  { productNumber := row.ProductNumber
    productDescription := row.ProductDescription
    productLabel := row.ProductLabel
    packingSize := row.PackingSize
    weight := jsParseFloatOr0 row.Weight
    qtyOrdered := jsParseIntOr0 row.QtyOrder
    qtyShipped := jsParseIntOr0 row.QtyShip
    qtyAdjusted := jsParseIntOr0 row.QtyAdjust
    pricingUnit := row.PricingUnit
    unitPrice := jsParseFloatOr0 row.UnitPrice
    extendedPrice := jsParseFloatOr0 row.ExtendedPrice }

/-- The fresh invoice inserted into the map on first sight of a document
number (`row.DocumentType || 'INVOICE'` defaults the empty string). -/
def newInvoice (row : USRow) : ParsedInvoice :=
  { documentNumber := jsTrim row.DocumentNumber
    documentType := if row.DocumentType = "" then "INVOICE" else row.DocumentType
    documentDate := row.DocumentDate
    customerNumber := row.CustomerNumber
    customerName := row.CustomerName
    orderNumber := row.OrderNumber
    netAmountAfterAdjustment := jsParseFloatOr0 row.NetAmountAfterAdjustment
    netAmountBeforeAdjustment := jsParseFloatOr0 row.NetAmountBeforeAdj
    deliveryAdjustment := jsParseFloatOr0 row.DeliveryAdjustment
    paymentTerms := row.PaymentTerms
    dateOrdered := row.DateOrdered
    dateShipped := row.DateShipped
    usfSalesLocation := row.USFSalesLocation
    usfSalesRep := row.USFSalesRep
    lineItems := []
    rawData := [] }

/-- The per-row mutation of an invoice already in the map: push a line item
when the row has a product number, and always push the raw row. -/
def addRow (inv : ParsedInvoice) (row : USRow) : ParsedInvoice :=
  { inv with
    lineItems := inv.lineItems ++ (if row.ProductNumber = "" then [] else [mkLineItem row])
    rawData := inv.rawData ++ [row] }

/-- One iteration of the row loop of `processInvoiceData`: rows without a
document number are skipped; otherwise the invoice keyed by the trimmed
document number is created if missing and then receives the row. -/
def processStep (acc : List ParsedInvoice) (row : USRow) : List ParsedInvoice :=
  if row.DocumentNumber = "" then acc
  else
    upsertStep (fun inv => inv.documentNumber) (fun r => jsTrim r.DocumentNumber)
      newInvoice addRow acc row

/-- `processInvoiceData` from `src/lib/csv-parser.ts` (the synchronous core of
`parseCSVContent`): fold the rows into an insertion-ordered invoice map. -/
def processInvoiceData (rows : List USRow) : List ParsedInvoice :=
  rows.foldl processStep []

/-- An invoice with its accumulated line items and raw rows stripped: the
invoice-level header fields. -/
def eraseItems (inv : ParsedInvoice) : ParsedInvoice :=
  { inv with lineItems := [], rawData := [] }

/-! ### Properties of the keyed-upsert fold -/

theorem find?_isSome_eq_any {α : Type} (p : α → Bool) (l : List α) :
    (l.find? p).isSome = l.any p := by
  induction l with
  | nil => rfl
  | cons a l ih => by_cases h : p a <;> simp [List.find?_cons, h, ih]

theorem find?_map_keyPreserving {α : Type} (kf : α → String) (g : α → α)
    (hg : ∀ a, kf (g a) = kf a) (l : List α) (d : String) :
    (l.map g).find? (fun a => kf a == d) = (l.find? (fun a => kf a == d)).map g := by
  induction l with
  | nil => rfl
  | cons a l ih =>
    simp only [List.map_cons, List.find?_cons, hg]
    cases h : (kf a == d) with
    | true => rfl
    | false => exact ih

theorem any_key_iff {α : Type} (kf : α → String) (acc : List α) (k : String) :
    acc.any (fun a => kf a == k) = true ↔ k ∈ acc.map kf := by
  simp only [List.any_eq_true, beq_iff_eq, List.mem_map]

theorem upsertStep_keys {α β : Type} (kf : α → String) (ib : β → String) (skel : β → α)
    (upd : α → β → α) (hsk : ∀ b, kf (skel b) = ib b) (hupd : ∀ a b, kf (upd a b) = kf a)
    (acc : List α) (b : β) :
    (upsertStep kf ib skel upd acc b).map kf =
      if ib b ∈ acc.map kf then acc.map kf else acc.map kf ++ [ib b] := by
  by_cases h : acc.any (fun a => kf a == ib b) = true
  · rw [if_pos ((any_key_iff kf acc (ib b)).mp h)]
    simp only [upsertStep, if_pos h, List.map_map]
    refine List.map_congr_left ?_
    intro a _
    by_cases hc : (kf a == ib b) = true <;> simp [Function.comp, hc, hupd]
  · rw [if_neg (fun hmem => h ((any_key_iff kf acc (ib b)).mpr hmem))]
    simp only [upsertStep, if_neg h, List.map_append, List.map_cons, List.map_nil,
      hupd, hsk]

theorem upsertFold_keys_nodup {α β : Type} (kf : α → String) (ib : β → String)
    (skel : β → α) (upd : α → β → α) (hsk : ∀ b, kf (skel b) = ib b)
    (hupd : ∀ a b, kf (upd a b) = kf a) :
    ∀ (l : List β) (acc : List α),
      (acc.map kf).Nodup → ((upsertFold kf ib skel upd acc l).map kf).Nodup := by
  intro l
  induction l with
  | nil => intro acc h; exact h
  | cons b l ih =>
    intro acc h
    refine ih (upsertStep kf ib skel upd acc b) ?_
    rw [upsertStep_keys kf ib skel upd hsk hupd]
    by_cases hm : ib b ∈ acc.map kf
    · simpa [hm] using h
    · rw [if_neg hm]
      exact ((List.perm_append_singleton _ _).nodup_iff).mpr (List.nodup_cons.mpr ⟨hm, h⟩)

theorem upsertFold_keys_mem {α β : Type} (kf : α → String) (ib : β → String)
    (skel : β → α) (upd : α → β → α) (hsk : ∀ b, kf (skel b) = ib b)
    (hupd : ∀ a b, kf (upd a b) = kf a) :
    ∀ (l : List β) (acc : List α) (d : String),
      d ∈ (upsertFold kf ib skel upd acc l).map kf ↔ d ∈ acc.map kf ∨ d ∈ l.map ib := by
  intro l
  induction l with
  | nil => intro acc d; simp [upsertFold]
  | cons b l ih =>
    intro acc d
    have hcons : upsertFold kf ib skel upd acc (b :: l) =
        upsertFold kf ib skel upd (upsertStep kf ib skel upd acc b) l := rfl
    rw [hcons, ih, upsertStep_keys kf ib skel upd hsk hupd]
    by_cases hm : ib b ∈ acc.map kf
    · rw [if_pos hm]
      simp only [List.map_cons, List.mem_cons]
      constructor
      · rintro (h | h)
        · exact Or.inl h
        · exact Or.inr (Or.inr h)
      · rintro (h | rfl | h)
        · exact Or.inl h
        · exact Or.inl hm
        · exact Or.inr h
    · rw [if_neg hm]
      simp only [List.mem_append, List.mem_singleton, List.map_cons, List.mem_cons]
      tauto

/-- The entry stored under a key after an upsert fold, as a function of the
entry previously stored and of the incoming items carrying that key. -/
def upsertResult {α β : Type} (skel : β → α) (upd : α → β → α)
    (prev : Option α) (bs : List β) : Option α :=
  match prev, bs with
  | some a, bs => some (bs.foldl upd a)
  | none, [] => none
  | none, b :: bs => some ((b :: bs).foldl upd (skel b))

theorem upsertFold_find? {α β : Type} (kf : α → String) (ib : β → String) (skel : β → α)
    (upd : α → β → α) (hsk : ∀ b, kf (skel b) = ib b)
    (hupd : ∀ a b, kf (upd a b) = kf a) :
    ∀ (l : List β) (acc : List α) (d : String),
      (upsertFold kf ib skel upd acc l).find? (fun a => kf a == d) =
        upsertResult skel upd (acc.find? (fun a => kf a == d))
          (l.filter (fun b => ib b == d)) := by
  intro l
  induction l with
  | nil =>
    intro acc d
    cases h : acc.find? (fun a => kf a == d) <;> simp [upsertFold, upsertResult, h]
  | cons b l ih =>
    intro acc d
    have hcons : upsertFold kf ib skel upd acc (b :: l) =
        upsertFold kf ib skel upd (upsertStep kf ib skel upd acc b) l := rfl
    rw [hcons, ih]
    by_cases hd : ib b = d
    · subst hd
      rw [List.filter_cons_of_pos (by simp)]
      by_cases hc : acc.any (fun a => kf a == ib b) = true
      · have hsome : (acc.find? (fun a => kf a == ib b)).isSome = true := by
          rw [find?_isSome_eq_any]; exact hc
        obtain ⟨a₀, ha₀⟩ := Option.isSome_iff_exists.mp hsome
        have hkey : (kf a₀ == ib b) = true := by
          have h' := List.find?_some ha₀
          simpa using h'
        have hstepfind : (upsertStep kf ib skel upd acc b).find? (fun a => kf a == ib b) =
            some (upd a₀ b) := by
          simp only [upsertStep, if_pos hc]
          rw [find?_map_keyPreserving kf (fun a => if kf a == ib b then upd a b else a)
            (by intro a; by_cases hca : (kf a == ib b) = true <;> simp [hca, hupd]), ha₀]
          simp [hkey]
          intro hcon
          exact absurd (beq_iff_eq.mp hkey) hcon
        rw [hstepfind, ha₀]
        simp [upsertResult, List.foldl_cons]
      · have hnone : acc.find? (fun a => kf a == ib b) = none := by
          cases h : acc.find? (fun a => kf a == ib b) with
          | none => rfl
          | some a₀ =>
            exfalso
            apply hc
            rw [← find?_isSome_eq_any, h]
            rfl
        have hx : (kf (upd (skel b) b) == ib b) = true := by simp [hupd, hsk]
        have hstepfind : (upsertStep kf ib skel upd acc b).find? (fun a => kf a == ib b) =
            some (upd (skel b) b) := by
          simp only [upsertStep, if_neg hc]
          rw [List.find?_append, hnone]
          simp [hx]
        rw [hstepfind, hnone]
        simp [upsertResult, List.foldl_cons]
    · rw [List.filter_cons_of_neg (by simp [hd])]
      have hpres : (upsertStep kf ib skel upd acc b).find? (fun a => kf a == d) =
          acc.find? (fun a => kf a == d) := by
        by_cases hc : acc.any (fun a => kf a == ib b) = true
        · simp only [upsertStep, if_pos hc]
          rw [find?_map_keyPreserving kf (fun a => if kf a == ib b then upd a b else a)
            (by intro a; by_cases hca : (kf a == ib b) = true <;> simp [hca, hupd])]
          cases h : acc.find? (fun a => kf a == d) with
          | none => rfl
          | some a₀ =>
            have hda : (kf a₀ == d) = true := by
              have h' := List.find?_some h
              simpa using h'
            have hne : (kf a₀ == ib b) = false := by
              rw [beq_eq_false_iff_ne]
              intro heq
              exact hd (heq ▸ (beq_iff_eq.mp hda))
            simp [hne]
            intro hcon
            exact absurd hcon (beq_eq_false_iff_ne.mp hne)
        · simp only [upsertStep, if_neg hc]
          rw [List.find?_append]
          have hone : ([upd (skel b) b].find? (fun a => kf a == d)) = none := by
            have : (kf (upd (skel b) b) == d) = false := by
              rw [beq_eq_false_iff_ne, hupd, hsk]
              exact hd
            simp [List.find?_cons, this]
          rw [hone, Option.or_none]
      rw [hpres]

theorem find?_eq_of_mem {α : Type} (kf : α → String) :
    ∀ (l : List α), ((l.map kf).Nodup) → ∀ a ∈ l, l.find? (fun x => kf x == kf a) = some a := by
  intro l
  induction l with
  | nil => intro _ a ha; cases ha
  | cons c l ih =>
    intro hnd a ha
    rw [List.map_cons, List.nodup_cons] at hnd
    rcases List.mem_cons.mp ha with rfl | ha'
    · simp [List.find?_cons]
    · have hne : (kf c == kf a) = false := by
        rw [beq_eq_false_iff_ne]
        intro he
        exact hnd.1 (he ▸ List.mem_map_of_mem kf ha')
      simp [List.find?_cons, hne, ih hnd.2 a ha']

theorem find?_of_filter_cons {α : Type} (p : α → Bool) :
    ∀ (l : List α) (b : α) (bs : List α), l.filter p = b :: bs → l.find? p = some b := by
  intro l
  induction l with
  | nil => intro b bs h; cases h
  | cons a l ih =>
    intro b bs h
    by_cases hp : p a = true
    · rw [List.filter_cons_of_pos hp] at h
      injection h with h₁ _
      subst h₁
      simp [List.find?_cons, hp]
    · rw [List.filter_cons_of_neg hp] at h
      simp only [List.find?_cons]
      cases hpa : p a with
      | true => exact absurd hpa hp
      | false => exact ih b bs h

theorem find?_filter_eq {α : Type} (p q : α → Bool) :
    ∀ l : List α, (l.filter q).find? p = l.find? (fun a => q a && p a) := by
  intro l
  induction l with
  | nil => rfl
  | cons a l ih =>
    by_cases hq : q a = true
    · rw [List.filter_cons_of_pos hq]
      simp only [List.find?_cons, hq, Bool.true_and]
      cases p a <;> simp [ih]
    · rw [List.filter_cons_of_neg hq]
      simp only [List.find?_cons]
      cases hqa : q a with
      | true => exact absurd hqa hq
      | false => simp [ih]

/-! ### Structure of `processInvoiceData` (claim C8) -/

theorem processInvoiceData_eq_upsertFold :
    ∀ (rows : List USRow) (acc : List ParsedInvoice),
      rows.foldl processStep acc =
        upsertFold (fun inv => inv.documentNumber) (fun r => jsTrim r.DocumentNumber)
          newInvoice addRow acc (rows.filter (fun r => !(r.DocumentNumber == ""))) := by
  intro rows
  induction rows with
  | nil => intro acc; rfl
  | cons r rows ih =>
    intro acc
    rw [List.foldl_cons]
    by_cases h : r.DocumentNumber = ""
    · rw [List.filter_cons_of_neg (by simp [h])]
      rw [show processStep acc r = acc from by simp [processStep, h]]
      exact ih acc
    · rw [List.filter_cons_of_pos (by simp [h])]
      rw [show processStep acc r = upsertStep (fun inv => inv.documentNumber)
          (fun r => jsTrim r.DocumentNumber) newInvoice addRow acc r from by
        simp [processStep, h]]
      exact ih _

theorem eraseItems_addRow (inv : ParsedInvoice) (r : USRow) :
    eraseItems (addRow inv r) = eraseItems inv := rfl

theorem eraseItems_foldl_addRow :
    ∀ (rs : List USRow) (inv : ParsedInvoice),
      eraseItems (rs.foldl addRow inv) = eraseItems inv := by
  intro rs
  induction rs with
  | nil => intro inv; rfl
  | cons r rs ih => intro inv; rw [List.foldl_cons, ih, eraseItems_addRow]

theorem lineItems_foldl_addRow :
    ∀ (rs : List USRow) (inv : ParsedInvoice),
      (rs.foldl addRow inv).lineItems =
        inv.lineItems ++ (rs.filter (fun r => !(r.ProductNumber == ""))).map mkLineItem := by
  intro rs
  induction rs with
  | nil => intro inv; simp
  | cons r rs ih =>
    intro inv
    rw [List.foldl_cons, ih]
    by_cases h : r.ProductNumber = ""
    · rw [List.filter_cons_of_neg (by simp [h])]
      simp [addRow, h]
    · rw [List.filter_cons_of_pos (by simp [h])]
      simp [addRow, h]

/-- C8: `processInvoiceData` skips exactly the rows whose `DocumentNumber` is
empty, produces one `ParsedInvoice` per distinct trimmed document number, with
the invoice-level fields built from the first row bearing that number, and
collects a line item for a grouped row exactly when the row's `ProductNumber`
is nonempty. -/
theorem processInvoiceData_spec (rows : List USRow) :
    ((processInvoiceData rows).map (fun inv => inv.documentNumber)).Nodup
    ∧ (∀ d : String, d ∈ (processInvoiceData rows).map (fun inv => inv.documentNumber) ↔
        ∃ r ∈ rows, r.DocumentNumber ≠ "" ∧ jsTrim r.DocumentNumber = d)
    ∧ (∀ inv ∈ processInvoiceData rows, ∃ r,
        rows.find? (fun r => !(r.DocumentNumber == "") &&
          (jsTrim r.DocumentNumber == inv.documentNumber)) = some r
        ∧ eraseItems inv = newInvoice r)
    ∧ (∀ inv ∈ processInvoiceData rows, inv.lineItems =
        (rows.filter (fun r => !(r.DocumentNumber == "") &&
          ((jsTrim r.DocumentNumber == inv.documentNumber) &&
            !(r.ProductNumber == "")))).map mkLineItem) := by
  have hsk : ∀ r : USRow, (newInvoice r).documentNumber = jsTrim r.DocumentNumber :=
    fun _ => rfl
  have hupd : ∀ (inv : ParsedInvoice) (r : USRow),
      (addRow inv r).documentNumber = inv.documentNumber := fun _ _ => rfl
  have hout : processInvoiceData rows =
      upsertFold (fun inv => inv.documentNumber) (fun r => jsTrim r.DocumentNumber)
        newInvoice addRow [] (rows.filter (fun r => !(r.DocumentNumber == ""))) :=
    processInvoiceData_eq_upsertFold rows []
  have hnodup : ((processInvoiceData rows).map (fun inv => inv.documentNumber)).Nodup := by
    rw [hout]
    exact upsertFold_keys_nodup _ _ _ _ hsk hupd _ [] (by simp)
  have hmain : ∀ inv ∈ processInvoiceData rows, ∃ b bs,
      (rows.filter (fun r => !(r.DocumentNumber == ""))).filter
          (fun r => jsTrim r.DocumentNumber == inv.documentNumber) = b :: bs
      ∧ inv = (b :: bs).foldl addRow (newInvoice b) := by
    intro inv hin
    have hfind := find?_eq_of_mem (fun inv : ParsedInvoice => inv.documentNumber) _ hnodup inv hin
    rw [hout, upsertFold_find? _ _ _ _ hsk hupd] at hfind
    simp only [List.find?_nil] at hfind
    cases hfil : (rows.filter (fun r => !(r.DocumentNumber == ""))).filter
        (fun r => jsTrim r.DocumentNumber == inv.documentNumber) with
    | nil => rw [hfil] at hfind; cases hfind
    | cons b bs =>
      rw [hfil] at hfind
      refine ⟨b, bs, rfl, ?_⟩
      have := hfind
      simp only [upsertResult, Option.some.injEq] at this
      exact this.symm
  refine ⟨hnodup, ?_, ?_, ?_⟩
  · intro d
    rw [hout, upsertFold_keys_mem _ _ _ _ hsk hupd]
    simp only [List.map_nil, List.not_mem_nil, false_or, List.mem_map, List.mem_filter]
    constructor
    · rintro ⟨r, ⟨hr, hv⟩, rfl⟩
      refine ⟨r, hr, ?_, rfl⟩
      simpa using hv
    · rintro ⟨r, hr, hne, rfl⟩
      refine ⟨r, ⟨hr, ?_⟩, rfl⟩
      simpa using hne
  · intro inv hin
    obtain ⟨b, bs, hfil, hinv⟩ := hmain inv hin
    refine ⟨b, ?_, ?_⟩
    · have h₁ := find?_of_filter_cons _ _ b bs hfil
      rw [find?_filter_eq] at h₁
      exact h₁
    · rw [hinv, eraseItems_foldl_addRow]
      rfl
  · intro inv hin
    obtain ⟨b, bs, hfil, hinv⟩ := hmain inv hin
    have h₂ : inv.lineItems =
        ((b :: bs).filter (fun r => !(r.ProductNumber == ""))).map mkLineItem := by
      rw [hinv, lineItems_foldl_addRow]
      rfl
    rw [h₂, ← hfil, List.filter_filter, List.filter_filter]
    congr 1
    refine List.filter_congr (fun r _ => ?_)
    cases h₁ : (r.DocumentNumber == "") <;>
      cases h₂ : (jsTrim r.DocumentNumber == inv.documentNumber) <;>
        cases h₃ : (r.ProductNumber == "") <;> rfl

/-- Concrete rows for the C8 witness: a normal row, a row with no document
number (skipped), and a row whose document number trims to the first one and
which has no product number. -/
def rowA : USRow :=
  { DocumentNumber := "100", DocumentType := "", DocumentDate := 5,
    CustomerNumber := "C", CustomerName := "N", OrderNumber := "O",
    NetAmountAfterAdjustment := "10", NetAmountBeforeAdj := "", DeliveryAdjustment := "",
    PaymentTerms := "", DateOrdered := "", DateShipped := "",
    USFSalesLocation := "", USFSalesRep := "",
    ProductNumber := "P1", ProductDescription := "APPLE", ProductLabel := "",
    PackingSize := "", Weight := "", QtyOrder := "", QtyShip := "", QtyAdjust := "",
    PricingUnit := "CS", UnitPrice := "3", ExtendedPrice := "3" }

def rowB : USRow := { rowA with DocumentNumber := "", ProductNumber := "X" }

def rowC : USRow := { rowA with DocumentNumber := " 100", ProductNumber := "" }

def demoRows : List USRow := [rowA, rowB, rowC]

/-- The single invoice that `processInvoiceData` assembles from `demoRows`. -/
def inv100 : ParsedInvoice := addRow (addRow (newInvoice rowA) rowA) rowC

/-- Witness for C8 on `demoRows`. -/
theorem processInvoiceData_spec_witness :
    ("100" ∈ (processInvoiceData demoRows).map (fun inv => inv.documentNumber))
    ∧ inv100.lineItems = (demoRows.filter (fun r => !(r.DocumentNumber == "") &&
        ((jsTrim r.DocumentNumber == inv100.documentNumber) &&
          !(r.ProductNumber == "")))).map mkLineItem := by
  have h := processInvoiceData_spec demoRows
  constructor
  · exact (h.2.1 "100").mpr ⟨rowA, by simp [demoRows], by decide, by decide⟩
  · refine h.2.2.2 inv100 ?_
    rw [show processInvoiceData demoRows = [inv100] from rfl]
    exact List.mem_singleton.mpr rfl

/-! ### price-analyzer: data model -/

/-- A per-product unit-price observation collected by `analyzePriceChanges`
(the source object also carries an `invoiceDate` field that duplicates `date`
and is never read). -/
structure Obs where
  price : ℚ
  date : Int
  deriving DecidableEq

/-- An entry of a product's price history in `calculateProductStats`. -/
structure PricePoint where
  price : ℚ
  date : Int
  invoiceNumber : String
  deriving DecidableEq

inductive ChangeType where
  | increase
  | decrease
  deriving DecidableEq

structure PriceChange where
  productNumber : String
  productDescription : String
  previousPrice : ℚ
  newPrice : ℚ
  percentageChange : ℚ
  changeType : ChangeType
  invoiceDate : Int
  previousInvoiceDate : Int
  deriving DecidableEq

inductive AlertType where
  | significant_increase
  | significant_decrease
  | unusual_pricing
  deriving DecidableEq

/-- A price alert.  `deviation` is a real number because for
`unusual_pricing` alerts the source stores the coefficient of variation,
whose exact value involves a square root. -/
structure PriceAlert where
  productNumber : String
  productDescription : String
  currentPrice : ℚ
  averagePrice : ℚ
  deviation : ℝ
  alertType : AlertType
  threshold : ℚ

/-- `ProductPriceHistory`.  The source stores the float
`standardDeviation / mean * 100` in its `priceVolatility` field; to stay
within exact arithmetic the embedding stores the square of that value,
`variance / mean ^ 2 * 10000` (`priceVolatilitySq`).  The volatility itself
is recovered as `Real.sqrt`, and comparisons against positive constants
translate accordingly (`sqrt v > 25 ↔ v > 625`), the square root being
strictly monotone on nonnegatives.  The source initializes `minPrice` and
`maxPrice` with `±Infinity`, which is overwritten before ever being read
(every map entry receives a price on creation); the embedding initializes
them with 0. -/
structure ProductPriceHistory where
  productNumber : String
  productDescription : String
  prices : List PricePoint
  averagePrice : ℚ
  minPrice : ℚ
  maxPrice : ℚ
  priceVolatilitySq : ℚ
  deriving DecidableEq

/-- The exact value of the source's `priceVolatility` field. -/
noncomputable def priceVolatilityR (s : ProductPriceHistory) : ℝ :=
  Real.sqrt ((s.priceVolatilitySq : ℚ) : ℝ)

/-! Sort relations used by the analyzer (JS `sort` with a numeric comparator
is stable ascending w.r.t. `compare(a,b) ≤ 0`). -/

/-- Invoice comparator `new Date(a.documentDate) - new Date(b.documentDate)`. -/
def invLe (a b : ParsedInvoice) : Prop := a.documentDate ≤ b.documentDate

instance : DecidableRel invLe :=
  fun a b => inferInstanceAs (Decidable (a.documentDate ≤ b.documentDate))

instance : IsTotal ParsedInvoice invLe := ⟨fun a b => le_total a.documentDate b.documentDate⟩

instance : IsTrans ParsedInvoice invLe := ⟨fun _ _ _ h₁ h₂ => le_trans h₁ h₂⟩

/-- Observation comparator (ascending by date). -/
def obsLe (a b : Obs) : Prop := a.date ≤ b.date

instance : DecidableRel obsLe := fun a b => inferInstanceAs (Decidable (a.date ≤ b.date))

instance : IsTotal Obs obsLe := ⟨fun a b => le_total a.date b.date⟩

instance : IsTrans Obs obsLe := ⟨fun _ _ _ h₁ h₂ => le_trans h₁ h₂⟩

/-- Price-history comparator (ascending by date). -/
def phLe (a b : PricePoint) : Prop := a.date ≤ b.date

instance : DecidableRel phLe := fun a b => inferInstanceAs (Decidable (a.date ≤ b.date))

instance : IsTotal PricePoint phLe := ⟨fun a b => le_total a.date b.date⟩

instance : IsTrans PricePoint phLe := ⟨fun _ _ _ h₁ h₂ => le_trans h₁ h₂⟩

/-- Change-record comparator `Math.abs(b.percentageChange) -
Math.abs(a.percentageChange)` (descending by absolute change). -/
def pcLe (a b : PriceChange) : Prop := |b.percentageChange| ≤ |a.percentageChange|

instance : DecidableRel pcLe :=
  fun a b => inferInstanceAs (Decidable (|b.percentageChange| ≤ |a.percentageChange|))

instance : IsTotal PriceChange pcLe :=
  ⟨fun a b => le_total |b.percentageChange| |a.percentageChange|⟩

instance : IsTrans PriceChange pcLe := ⟨fun _ _ _ h₁ h₂ => le_trans h₂ h₁⟩

/-- Alert comparator `b.deviation - a.deviation` (descending by deviation). -/
def alertLe (a b : PriceAlert) : Prop := b.deviation ≤ a.deviation

noncomputable instance : DecidableRel alertLe :=
  fun a b => inferInstanceAs (Decidable (b.deviation ≤ a.deviation))

instance : IsTotal PriceAlert alertLe := ⟨fun a b => le_total b.deviation a.deviation⟩

instance : IsTrans PriceAlert alertLe := ⟨fun _ _ _ h₁ h₂ => le_trans h₂ h₁⟩

/-- Volatility comparator `b.priceVolatility - a.priceVolatility` (descending).
Comparing the stored squares orders exactly as comparing the volatilities,
the square root being monotone. -/
def volLe (a b : ProductPriceHistory) : Prop := b.priceVolatilitySq ≤ a.priceVolatilitySq

instance : DecidableRel volLe :=
  fun a b => inferInstanceAs (Decidable (b.priceVolatilitySq ≤ a.priceVolatilitySq))

instance : IsTotal ProductPriceHistory volLe :=
  ⟨fun a b => le_total b.priceVolatilitySq a.priceVolatilitySq⟩

instance : IsTrans ProductPriceHistory volLe := ⟨fun _ _ _ h₁ h₂ => le_trans h₂ h₁⟩

/-! ### price-analyzer: `analyzePriceChanges` -/

/-- The product description attached to change and alert records: scan the
invoices in order and take the description of the first line item bearing the
product number, defaulting to the empty string. -/
def findDescription (invoices : List ParsedInvoice) (productNumber : String) : String :=
  match invoices.findSome?
      (fun inv => inv.lineItems.find? (fun li => li.productNumber == productNumber)) with
  | some item => item.productDescription
  | none => ""

/-- `Math.round(x * 100) / 100`: round to two decimals (`Math.round` rounds
half towards `+∞`, i.e. `⌊x + 1/2⌋`). -/
def jsRound2 (q : ℚ) : ℚ := ((⌊q * 100 + 1 / 2⌋ : ℤ) : ℚ) / 100

/-- The observation pushed for one line item. -/
def obsOf (inv : ParsedInvoice) (item : ParsedLineItem) : String × Obs :=
  (item.productNumber, { price := item.unitPrice, date := inv.documentDate })

def obsSkel (b : String × Obs) : String × List Obs := (b.1, [])

def obsUpd (a : String × List Obs) (b : String × Obs) : String × List Obs :=
  (a.1, a.2 ++ [b.2])

/-- The `productPrices` map of `analyzePriceChanges`: unit-price observations
grouped by product number, in invoice traversal order. -/
def groupObs (invoices : List ParsedInvoice) : List (String × List Obs) :=
  invoices.foldl
    (fun acc inv => inv.lineItems.foldl
      (fun acc item => upsertStep Prod.fst Prod.fst obsSkel obsUpd acc (obsOf inv item)) acc)
    []

/-- All observations of all invoices, flattened in traversal order. -/
def allObs (invoices : List ParsedInvoice) : List (String × Obs) :=
  invoices.flatMap (fun inv => inv.lineItems.map (obsOf inv))

/-- `analyzePriceChanges` from `src/lib/price-analyzer.ts`: sort invoices by
date, group observations by product, re-sort each product's observations by
date, walk adjacent pairs skipping equal prices, keep changes whose absolute
percentage reaches the threshold, and return them sorted by absolute
percentage change descending. -/
def analyzePriceChanges (invoices : List ParsedInvoice) (threshold : ℚ := 20) :
    List PriceChange :=
  let sortedInvoices := insertionSort invLe invoices
  let productPrices := groupObs sortedInvoices
  let priceChanges := productPrices.flatMap (fun pp =>
    if pp.2.length < 2 then []
    else
      let prices := insertionSort obsLe pp.2
      (prices.zip prices.tail).filterMap (fun pr =>
        if pr.2.price = pr.1.price then none
        else
          let percentageChange := (pr.2.price - pr.1.price) / pr.1.price * 100
          if threshold ≤ |percentageChange| then
            some { productNumber := pp.1
                   productDescription := findDescription sortedInvoices pp.1
                   previousPrice := pr.1.price
                   newPrice := pr.2.price
                   percentageChange := jsRound2 percentageChange
                   changeType := if 0 < percentageChange then ChangeType.increase
                     else ChangeType.decrease
                   invoiceDate := pr.2.date
                   previousInvoiceDate := pr.1.date }
          else none))
  insertionSort pcLe priceChanges

/-! ### price-analyzer: `calculateProductStats` -/

def phSkel (b : ParsedLineItem × ParsedInvoice) : ProductPriceHistory :=
  { productNumber := b.1.productNumber
    productDescription := b.1.productDescription
    prices := []
    averagePrice := 0
    minPrice := 0
    maxPrice := 0
    priceVolatilitySq := 0 }

/-- The price point pushed for one line item. -/
def pricePointOf (b : ParsedLineItem × ParsedInvoice) : PricePoint :=
  { price := b.1.unitPrice, date := b.2.documentDate, invoiceNumber := b.2.documentNumber }

def phUpd (s : ProductPriceHistory) (b : ParsedLineItem × ParsedInvoice) :
    ProductPriceHistory :=
  { s with prices := s.prices ++ [pricePointOf b] }

/-- The collection pass of `calculateProductStats`: price data grouped by
product number, in invoice traversal order. -/
def statsGroup (invoices : List ParsedInvoice) : List ProductPriceHistory :=
  invoices.foldl
    (fun acc inv => inv.lineItems.foldl
      (fun acc item => upsertStep (fun s => s.productNumber) (fun b => b.1.productNumber)
        phSkel phUpd acc (item, inv)) acc)
    []

/-- All line items of all invoices, flattened in traversal order, each paired
with its invoice. -/
def allItems (invoices : List ParsedInvoice) : List (ParsedLineItem × ParsedInvoice) :=
  invoices.flatMap (fun inv => inv.lineItems.map (fun item => (item, inv)))

/-- `Math.min(...prices)` on the (nonempty) price list. -/
def jsMin : List ℚ → ℚ
  | [] => 0
  | p :: ps => ps.foldl min p

/-- `Math.max(...prices)`. -/
def jsMax : List ℚ → ℚ
  | [] => 0
  | p :: ps => ps.foldl max p

/-- The statistics pass of `calculateProductStats` for one product: sort the
price history by date, then compute mean, min, max, and the (squared)
coefficient of variation, the latter only when the mean is positive.
Products without prices are skipped (in fact every map entry receives a price
on creation). -/
def finalizeStats (s : ProductPriceHistory) : ProductPriceHistory :=
  if s.prices.isEmpty then s
  else
    let sorted := insertionSort phLe s.prices
    let prices := sorted.map (fun p => p.price)
    let averagePrice := prices.foldl (· + ·) 0 / (prices.length : ℚ)
    let variance :=
      (prices.foldl (fun acc p => acc + (p - averagePrice) ^ 2) 0) / (prices.length : ℚ)
    { s with
      prices := sorted
      averagePrice := averagePrice
      minPrice := jsMin prices
      maxPrice := jsMax prices
      priceVolatilitySq :=
        if 0 < averagePrice then variance / averagePrice ^ 2 * 10000
        else s.priceVolatilitySq }

/-- `calculateProductStats` from `src/lib/price-analyzer.ts`. -/
def calculateProductStats (invoices : List ParsedInvoice) : List ProductPriceHistory :=
  (statsGroup invoices).map finalizeStats

/-! ### price-analyzer: `generatePriceAlerts` and `findVolatileProducts` -/

/-- `stats.prices[stats.prices.length - 1]?.price || 0`. -/
def latestPrice (s : ProductPriceHistory) : ℚ :=
  match s.prices.getLast? with
  | some e => e.price
  | none => 0

/-- `generatePriceAlerts` from `src/lib/price-analyzer.ts`: per product, a
significant increase/decrease alert when the latest price deviates from the
mean by strictly more than 30 percent, and an unusual-pricing alert when the
volatility exceeds 25 (embedded as its square exceeding 625); the result is
sorted by deviation descending. -/
noncomputable def generatePriceAlerts (invoices : List ParsedInvoice) : List PriceAlert :=
  let productStats := calculateProductStats invoices
  let alerts := productStats.flatMap (fun stats =>
    let latest := latestPrice stats
    let deviationPercent := |(latest - stats.averagePrice) / stats.averagePrice * 100|
    (if 30 < deviationPercent then
      [{ productNumber := stats.productNumber
         productDescription := findDescription invoices stats.productNumber
         currentPrice := latest
         averagePrice := stats.averagePrice
         deviation := ((deviationPercent : ℚ) : ℝ)
         alertType := if stats.averagePrice < latest then AlertType.significant_increase
           else AlertType.significant_decrease
         threshold := 30 }]
    else [])
    ++
    (if 625 < stats.priceVolatilitySq then
      [{ productNumber := stats.productNumber
         productDescription := findDescription invoices stats.productNumber
         currentPrice := latest
         averagePrice := stats.averagePrice
         deviation := priceVolatilityR stats
         alertType := AlertType.unusual_pricing
         threshold := 25 }]
    else []))
  insertionSort alertLe alerts

/-- `findVolatileProducts` from `src/lib/price-analyzer.ts`: products with at
least 3 price points, sorted by volatility descending, truncated to `limit`. -/
def findVolatileProducts (invoices : List ParsedInvoice) (limit : ℕ := 10) :
    List ProductPriceHistory :=
  (insertionSort volLe
    ((calculateProductStats invoices).filter (fun stats => 3 ≤ stats.prices.length))).take limit

/-! ### Bridging the nested grouping loops to the flat upsert fold -/

theorem upsertFold_mem_char {α β : Type} (kf : α → String) (ib : β → String) (skel : β → α)
    (upd : α → β → α) (hsk : ∀ b, kf (skel b) = ib b)
    (hupd : ∀ a b, kf (upd a b) = kf a) (l : List β) :
    ∀ a ∈ upsertFold kf ib skel upd [] l, ∃ b bs,
      l.filter (fun x => ib x == kf a) = b :: bs ∧ a = (b :: bs).foldl upd (skel b) := by
  intro a ha
  have hnodup := upsertFold_keys_nodup kf ib skel upd hsk hupd l [] (by simp)
  have hfind := find?_eq_of_mem kf _ hnodup a ha
  rw [upsertFold_find? kf ib skel upd hsk hupd] at hfind
  simp only [List.find?_nil] at hfind
  cases hfil : l.filter (fun x => ib x == kf a) with
  | nil => rw [hfil] at hfind; cases hfind
  | cons b bs =>
    rw [hfil] at hfind
    simp only [upsertResult, Option.some.injEq] at hfind
    exact ⟨b, bs, rfl, hfind.symm⟩

theorem groupObs_eq_upsertFold (invoices : List ParsedInvoice) :
    groupObs invoices = upsertFold Prod.fst Prod.fst obsSkel obsUpd [] (allObs invoices) := by
  suffices h : ∀ (invs : List ParsedInvoice) (acc : List (String × List Obs)),
      invs.foldl (fun acc inv => inv.lineItems.foldl
        (fun acc item => upsertStep Prod.fst Prod.fst obsSkel obsUpd acc (obsOf inv item)) acc) acc
      = upsertFold Prod.fst Prod.fst obsSkel obsUpd acc (allObs invs) by
    exact h invoices []
  intro invs
  induction invs with
  | nil => intro acc; rfl
  | cons inv invs ih =>
    intro acc
    rw [List.foldl_cons, ih]
    rw [show allObs (inv :: invs) = inv.lineItems.map (obsOf inv) ++ allObs invs from by
      simp [allObs]]
    simp only [upsertFold]
    rw [List.foldl_append, List.foldl_map]

theorem statsGroup_eq_upsertFold (invoices : List ParsedInvoice) :
    statsGroup invoices = upsertFold (fun s => s.productNumber) (fun b => b.1.productNumber)
      phSkel phUpd [] (allItems invoices) := by
  suffices h : ∀ (invs : List ParsedInvoice) (acc : List ProductPriceHistory),
      invs.foldl (fun acc inv => inv.lineItems.foldl
        (fun acc item => upsertStep (fun s => s.productNumber) (fun b => b.1.productNumber)
          phSkel phUpd acc (item, inv)) acc) acc
      = upsertFold (fun s => s.productNumber) (fun b => b.1.productNumber)
          phSkel phUpd acc (allItems invs) by
    exact h invoices []
  intro invs
  induction invs with
  | nil => intro acc; rfl
  | cons inv invs ih =>
    intro acc
    rw [List.foldl_cons, ih]
    rw [show allItems (inv :: invs) =
        (inv.lineItems.map (fun item => (item, inv))) ++ allItems invs from by
      simp [allItems]]
    simp only [upsertFold]
    rw [List.foldl_append, List.foldl_map]

theorem foldl_obsUpd_snd : ∀ (bs : List (String × Obs)) (a : String × List Obs),
    (bs.foldl obsUpd a).2 = a.2 ++ bs.map Prod.snd := by
  intro bs
  induction bs with
  | nil => intro a; simp
  | cons b bs ih =>
    intro a
    rw [List.foldl_cons, ih]
    simp [obsUpd]

theorem foldl_obsUpd_fst : ∀ (bs : List (String × Obs)) (a : String × List Obs),
    (bs.foldl obsUpd a).1 = a.1 := by
  intro bs
  induction bs with
  | nil => intro a; rfl
  | cons b bs ih => intro a; rw [List.foldl_cons, ih]; rfl

theorem foldl_phUpd_prices : ∀ (bs : List (ParsedLineItem × ParsedInvoice))
    (a : ProductPriceHistory),
    (bs.foldl phUpd a).prices = a.prices ++ bs.map pricePointOf := by
  intro bs
  induction bs with
  | nil => intro a; simp
  | cons b bs ih =>
    intro a
    rw [List.foldl_cons, ih]
    simp [phUpd]

theorem foldl_phUpd_fields : ∀ (bs : List (ParsedLineItem × ParsedInvoice))
    (a : ProductPriceHistory),
    (bs.foldl phUpd a).averagePrice = a.averagePrice
    ∧ (bs.foldl phUpd a).priceVolatilitySq = a.priceVolatilitySq
    ∧ (bs.foldl phUpd a).productNumber = a.productNumber := by
  intro bs
  induction bs with
  | nil => intro a; exact ⟨rfl, rfl, rfl⟩
  | cons b bs ih =>
    intro a
    rw [List.foldl_cons]
    exact ih (phUpd a b)

/-! ### Claim C1: structure of `analyzePriceChanges` -/

/-- The per-product observation lists as `analyzePriceChanges` sees them:
grouped by product number (over the date-sorted invoices) and sorted by date
ascending. -/
def sortedProductObs (invoices : List ParsedInvoice) : List (String × List Obs) :=
  (groupObs (insertionSort invLe invoices)).map (fun pp => (pp.1, insertionSort obsLe pp.2))

/-- The identifying projection of a change record: the product and the two
prices and dates of the adjacent observation pair it was emitted for. -/
def changeKey (r : PriceChange) : String × ℚ × ℚ × Int × Int :=
  (r.productNumber, r.previousPrice, r.newPrice, r.previousInvoiceDate, r.invoiceDate)

/-- Spec-side emission over one product's date-sorted observations, under the
amended condition: the adjacent prices differ and the absolute percentage
change reaches the threshold. -/
def specEmit (threshold : ℚ) (pp : String × List Obs) : List (String × ℚ × ℚ × Int × Int) :=
  (pp.2.zip pp.2.tail).filterMap (fun pr =>
    if pr.1.price ≠ pr.2.price ∧
        threshold ≤ |(pr.2.price - pr.1.price) / pr.1.price * 100| then
      some (pp.1, pr.1.price, pr.2.price, pr.1.date, pr.2.date)
    else none)

/-- Spec-side emission exactly as the claim words it: a record for every
adjacent pair whose absolute percentage change reaches the threshold, with no
exception for equal prices. -/
def specEmitClaimed (threshold : ℚ) (pp : String × List Obs) :
    List (String × ℚ × ℚ × Int × Int) :=
  (pp.2.zip pp.2.tail).filterMap (fun pr =>
    if threshold ≤ |(pr.2.price - pr.1.price) / pr.1.price * 100| then
      some (pp.1, pr.1.price, pr.2.price, pr.1.date, pr.2.date)
    else none)

theorem zip_tail_of_short {α : Type} (l : List α) (h : l.length < 2) :
    l.zip l.tail = [] := by
  match l, h with
  | [], _ => rfl
  | [a], _ => rfl

theorem flatMap_congr_local {α β : Type} (l : List α) (f g : α → List β)
    (h : ∀ a ∈ l, f a = g a) : l.flatMap f = l.flatMap g := by
  induction l with
  | nil => rfl
  | cons a l ih =>
    rw [List.flatMap_cons, List.flatMap_cons, h a (by simp),
      ih (fun x hx => h x (by simp [hx]))]

/-- C1 (amended): `analyzePriceChanges` defaults its threshold to 20; it
groups the unit-price observations by product number — one group per observed
product, each group a date-ascending ordering of exactly that product's
observations — and emits one change record per adjacent pair of a group
exactly when the two prices differ and the absolute value of
`(current - previous) / previous * 100` is at least the threshold (equal
consecutive prices are skipped before the threshold test). -/
theorem analyzePriceChanges_spec (invoices : List ParsedInvoice) (threshold : ℚ) :
    analyzePriceChanges invoices = analyzePriceChanges invoices 20
    ∧ ((sortedProductObs invoices).map Prod.fst).Nodup
    ∧ (∀ p obs, (p, obs) ∈ sortedProductObs invoices →
        Sorted obsLe obs ∧
        obs ~ ((allObs invoices).filter (fun x => x.1 == p)).map Prod.snd)
    ∧ (∀ p : String,
        (∃ obs, (p, obs) ∈ sortedProductObs invoices) ↔ p ∈ (allObs invoices).map Prod.fst)
    ∧ ((analyzePriceChanges invoices threshold).map changeKey ~
        (sortedProductObs invoices).flatMap (specEmit threshold)) := by
  have hsk : ∀ b : String × Obs, (obsSkel b).1 = b.1 := fun _ => rfl
  have hupd : ∀ (a : String × List Obs) (b : String × Obs), (obsUpd a b).1 = a.1 :=
    fun _ _ => rfl
  have hG := groupObs_eq_upsertFold (insertionSort invLe invoices)
  have hperm₂ : allObs (insertionSort invLe invoices) ~ allObs invoices :=
    (perm_insertionSort invLe invoices).flatMap_right _
  have hnodupG : ((groupObs (insertionSort invLe invoices)).map Prod.fst).Nodup := by
    rw [hG]
    exact upsertFold_keys_nodup _ _ _ _ hsk hupd _ [] (by simp)
  have hkeys : (sortedProductObs invoices).map Prod.fst
      = (groupObs (insertionSort invLe invoices)).map Prod.fst := by
    rw [sortedProductObs, List.map_map]
    rfl
  refine ⟨rfl, by rw [hkeys]; exact hnodupG, ?_, ?_, ?_⟩
  · intro p obs hmem
    rw [sortedProductObs, List.mem_map] at hmem
    obtain ⟨pp, hpp, heq⟩ := hmem
    rw [Prod.mk.injEq] at heq
    obtain ⟨h₁, h₂⟩ := heq
    subst h₁
    subst h₂
    refine ⟨sorted_insertionSort obsLe pp.2, ?_⟩
    have hchar := upsertFold_mem_char Prod.fst Prod.fst obsSkel obsUpd hsk hupd
      (allObs (insertionSort invLe invoices)) pp (by rw [← hG]; exact hpp)
    obtain ⟨b, bs, hfil, hppeq⟩ := hchar
    have hsnd : pp.2 = ((allObs (insertionSort invLe invoices)).filter
        (fun x => x.1 == pp.1)).map Prod.snd := by
      conv_lhs => rw [hppeq]
      rw [foldl_obsUpd_snd, hfil]
      simp [obsSkel]
    refine (perm_insertionSort obsLe pp.2).trans ?_
    rw [hsnd]
    exact (hperm₂.filter _).map _
  · intro p
    constructor
    · rintro ⟨obs, hmem⟩
      have hp : p ∈ (sortedProductObs invoices).map Prod.fst :=
        List.mem_map_of_mem Prod.fst hmem
      rw [hkeys, hG] at hp
      have hp' := (upsertFold_keys_mem _ _ _ _ hsk hupd _ [] p).mp hp
      simp only [List.map_nil, List.not_mem_nil, false_or] at hp'
      exact ((hperm₂.map Prod.fst).mem_iff).mp hp'
    · intro hp
      have hp' : p ∈ (allObs (insertionSort invLe invoices)).map Prod.fst :=
        ((hperm₂.map Prod.fst).mem_iff).mpr hp
      have hmem : p ∈ (groupObs (insertionSort invLe invoices)).map Prod.fst := by
        rw [hG]
        exact (upsertFold_keys_mem _ _ _ _ hsk hupd _ [] p).mpr (Or.inr hp')
      rw [← hkeys, List.mem_map] at hmem
      obtain ⟨pp, hpp, hfst⟩ := hmem
      refine ⟨pp.2, ?_⟩
      have : pp = (p, pp.2) := by
        rw [← hfst]
      rw [← this]
      exact hpp
  · have hpt : ∀ pp : String × List Obs,
        ((if pp.2.length < 2 then ([] : List PriceChange)
          else
            ((insertionSort obsLe pp.2).zip (insertionSort obsLe pp.2).tail).filterMap
              (fun pr =>
                if pr.2.price = pr.1.price then none
                else
                  if threshold ≤ |(pr.2.price - pr.1.price) / pr.1.price * 100| then
                    some { productNumber := pp.1
                           productDescription :=
                             findDescription (insertionSort invLe invoices) pp.1
                           previousPrice := pr.1.price
                           newPrice := pr.2.price
                           percentageChange :=
                             jsRound2 ((pr.2.price - pr.1.price) / pr.1.price * 100)
                           changeType :=
                             if (0 : ℚ) < (pr.2.price - pr.1.price) / pr.1.price * 100 then
                               ChangeType.increase
                             else ChangeType.decrease
                           invoiceDate := pr.2.date
                           previousInvoiceDate := pr.1.date }
                  else none)).map changeKey)
        = specEmit threshold (pp.1, insertionSort obsLe pp.2) := by
      intro pp
      by_cases hlen : pp.2.length < 2
      · rw [if_pos hlen]
        have hshort : (insertionSort obsLe pp.2).length < 2 := by
          rw [length_insertionSort]
          exact hlen
        simp [specEmit, zip_tail_of_short _ hshort]
      · rw [if_neg hlen, List.map_filterMap]
        simp only [specEmit]
        refine List.filterMap_congr ?_
        intro pr _
        by_cases heq : pr.2.price = pr.1.price
        · rw [if_pos heq, if_neg (by rintro ⟨hne, _⟩; exact hne heq.symm)]
          rfl
        · rw [if_neg heq]
          by_cases hth : threshold ≤ |(pr.2.price - pr.1.price) / pr.1.price * 100|
          · have hc : pr.1.price ≠ pr.2.price ∧
                threshold ≤ |(pr.2.price - pr.1.price) / pr.1.price * 100| :=
              ⟨fun h => heq h.symm, hth⟩
            rw [if_pos hth, if_pos hc]
            rfl
          · rw [if_neg hth, if_neg (by rintro ⟨_, h⟩; exact hth h)]
            rfl
    simp only [analyzePriceChanges]
    refine Perm.trans ((perm_insertionSort pcLe _).map changeKey) ?_
    rw [List.map_flatMap, sortedProductObs, List.flatMap_map]
    rw [flatMap_congr_local _ _ _ (fun pp _ => hpt pp)]

/-! ### Concrete inputs for counterexamples and witnesses -/

def demoItem (p : String) (desc : String) (price : ℚ) : ParsedLineItem :=
  { productNumber := p, productDescription := desc, productLabel := "", packingSize := ""
    weight := 0, qtyOrdered := 1, qtyShipped := 1, qtyAdjusted := 0, pricingUnit := "CS"
    unitPrice := price, extendedPrice := price }

def demoInvoice (num : String) (date : Int) (items : List ParsedLineItem) : ParsedInvoice :=
  { documentNumber := num, documentType := "INVOICE", documentDate := date
    customerNumber := "", customerName := "", orderNumber := ""
    netAmountAfterAdjustment := 0, netAmountBeforeAdjustment := 0, deliveryAdjustment := 0
    paymentTerms := "", dateOrdered := "", dateShipped := "", usfSalesLocation := ""
    usfSalesRep := "", lineItems := items, rawData := [] }

/-- Product "A" at price 3 then 4 (dates 1, 2): a 33.33% increase. -/
def demo63Invs : List ParsedInvoice :=
  [demoInvoice "I1" 1 [demoItem "A" "apple" 3], demoInvoice "I2" 2 [demoItem "A" "apple" 4]]

/-- Product "A" at the same price 5 on two dates. -/
def demoEqInvs : List ParsedInvoice :=
  [demoInvoice "I1" 1 [demoItem "A" "apple" 5], demoInvoice "I2" 2 [demoItem "A" "apple" 5]]

/-- The single change record produced on `demo63Invs` at threshold 20. -/
def r63 : PriceChange :=
  { productNumber := "A", productDescription := "apple", previousPrice := 3, newPrice := 4
    percentageChange := 3333 / 100, changeType := ChangeType.increase
    invoiceDate := 2, previousInvoiceDate := 1 }

theorem analyzePriceChanges_demo63 : analyzePriceChanges demo63Invs 20 = [r63] := by
  have habs : |((4 : ℚ) - 3) / 3 * 100| = 100 / 3 := by
    rw [abs_of_pos] <;> norm_num
  have habs' : |(100 : ℚ) / 3| = 100 / 3 := by
    rw [abs_of_pos]
    norm_num
  norm_num [analyzePriceChanges, groupObs, upsertStep, obsOf, obsSkel, obsUpd,
    insertionSort, orderedInsert, invLe, obsLe, pcLe, findDescription,
    demo63Invs, demoInvoice, demoItem, jsRound2, r63, List.filterMap_cons, habs, habs']

/-- C1 as literally stated fails: with threshold 0 and two observations at
the same price, `abs(percentageChange) = 0 ≥ 0` calls for a record, but the
code skips equal consecutive prices and emits nothing. -/
theorem analyzePriceChanges_claim_counterexample :
    analyzePriceChanges demoEqInvs 0 = []
    ∧ (sortedProductObs demoEqInvs).flatMap (specEmitClaimed 0) ≠ [] := by
  constructor
  · norm_num [analyzePriceChanges, groupObs, upsertStep, obsOf, obsSkel, obsUpd,
      insertionSort, orderedInsert, invLe, obsLe, pcLe, findDescription,
      demoEqInvs, demoInvoice, demoItem, List.filterMap_cons]
  · norm_num [sortedProductObs, groupObs, upsertStep, obsOf, obsSkel, obsUpd,
      insertionSort, orderedInsert, invLe, obsLe, specEmitClaimed,
      demoEqInvs, demoInvoice, demoItem, List.filterMap_cons]

/-- The observation list of product "A" in `demo63Invs`. -/
def demoObsA : List Obs := [{ price := 3, date := 1 }, { price := 4, date := 2 }]

/-- Witness for C1 on `demo63Invs`. -/
theorem analyzePriceChanges_spec_witness :
    Sorted obsLe demoObsA
    ∧ demoObsA ~ ((allObs demo63Invs).filter (fun x => x.1 == "A")).map Prod.snd
    ∧ ((analyzePriceChanges demo63Invs 20).map changeKey ~
        (sortedProductObs demo63Invs).flatMap (specEmit 20)) := by
  have h := analyzePriceChanges_spec demo63Invs 20
  have hmem : ("A", demoObsA) ∈ sortedProductObs demo63Invs := by
    rw [show sortedProductObs demo63Invs = [("A", demoObsA)] from rfl]
    exact List.mem_singleton.mpr rfl
  obtain ⟨hs, hp⟩ := h.2.2.1 "A" demoObsA hmem
  exact ⟨hs, hp, h.2.2.2.2⟩

/-! ### Claim C6: the fields of an emitted change record -/

/-- C6 (amended): every emitted record carries `percentageChange` equal to
the exact `(new - previous) / previous * 100` of its pair rounded to two
decimals (`Math.round(x*100)/100`), and `changeType` is `increase` exactly
when the exact value is positive, `decrease` otherwise. -/
theorem priceChange_fields (invoices : List ParsedInvoice) (threshold : ℚ) :
    ∀ r ∈ analyzePriceChanges invoices threshold,
      r.percentageChange = jsRound2 ((r.newPrice - r.previousPrice) / r.previousPrice * 100)
      ∧ (r.changeType = ChangeType.increase ↔
          0 < (r.newPrice - r.previousPrice) / r.previousPrice * 100)
      ∧ (r.changeType = ChangeType.decrease ↔
          ¬0 < (r.newPrice - r.previousPrice) / r.previousPrice * 100) := by
  intro r hr
  simp only [analyzePriceChanges] at hr
  rw [mem_insertionSort, List.mem_flatMap] at hr
  obtain ⟨pp, hpp, hin⟩ := hr
  by_cases hlen : pp.2.length < 2
  · rw [if_pos hlen] at hin
    cases hin
  · rw [if_neg hlen] at hin
    rw [List.mem_filterMap] at hin
    obtain ⟨pr, hprmem, hpr⟩ := hin
    by_cases heq : pr.2.price = pr.1.price
    · rw [if_pos heq] at hpr
      cases hpr
    · rw [if_neg heq] at hpr
      by_cases hth : threshold ≤ |(pr.2.price - pr.1.price) / pr.1.price * 100|
      · rw [if_pos hth, Option.some.injEq] at hpr
        subst hpr
        refine ⟨rfl, ?_, ?_⟩
        · by_cases hpos : 0 < (pr.2.price - pr.1.price) / pr.1.price * 100
          · simp [hpos]
          · simp [hpos]
        · by_cases hpos : 0 < (pr.2.price - pr.1.price) / pr.1.price * 100
          · simp [hpos]
          · simp [hpos]
      · rw [if_neg hth] at hpr
        cases hpr

/-- C6 as literally stated fails: the stored `percentageChange` of the change
emitted for prices 3 → 4 is the rounded 33.33, not the exact 100/3. -/
theorem percentageChange_exact_counterexample :
    (analyzePriceChanges demo63Invs 20).map (fun r => r.percentageChange) ≠
      (analyzePriceChanges demo63Invs 20).map
        (fun r => (r.newPrice - r.previousPrice) / r.previousPrice * 100) := by
  rw [analyzePriceChanges_demo63]
  norm_num [r63]

/-- Witness for C6 on `demo63Invs`. -/
theorem priceChange_fields_witness :
    r63 ∈ analyzePriceChanges demo63Invs 20
    ∧ r63.percentageChange =
        jsRound2 ((r63.newPrice - r63.previousPrice) / r63.previousPrice * 100)
    ∧ (r63.changeType = ChangeType.increase ↔
        0 < (r63.newPrice - r63.previousPrice) / r63.previousPrice * 100) := by
  have hmem : r63 ∈ analyzePriceChanges demo63Invs 20 := by
    rw [analyzePriceChanges_demo63]
    exact List.mem_singleton.mpr rfl
  have h := priceChange_fields demo63Invs 20 r63 hmem
  exact ⟨hmem, h.1, h.2.1⟩

/-! ### Claim C2: volatility as coefficient of variation -/

/-- Mean of a price list (spec side). -/
def listMean (l : List ℚ) : ℚ := l.sum / (l.length : ℚ)

/-- Population variance of a price list (spec side). -/
def listVariance (l : List ℚ) : ℚ :=
  ((l.map (fun p => (p - listMean l) ^ 2)).sum) / (l.length : ℚ)

/-- Standard deviation of a price list (spec side). -/
noncomputable def listStddev (l : List ℚ) : ℝ := Real.sqrt ((listVariance l : ℚ) : ℝ)

theorem foldl_add_eq_sum (l : List ℚ) : l.foldl (· + ·) 0 = l.sum :=
  (l.sum_eq_foldl).symm

theorem foldl_add_sq_eq_sum (l : List ℚ) (m : ℚ) :
    l.foldl (fun acc p => acc + (p - m) ^ 2) 0 = (l.map (fun p => (p - m) ^ 2)).sum := by
  rw [List.sum_eq_foldl, List.foldl_map]

theorem listVariance_nonneg (l : List ℚ) : 0 ≤ listVariance l := by
  rw [listVariance]
  apply div_nonneg
  · apply List.sum_nonneg
    intro x hx
    obtain ⟨p, _, rfl⟩ := List.mem_map.mp hx
    positivity
  · positivity

/-- What `calculateProductStats` guarantees about each entry it returns:
nonempty date-sorted prices, the mean of those prices as `averagePrice`, and
the squared coefficient of variation (or 0 for a nonpositive mean) as
`priceVolatilitySq`. -/
theorem calculateProductStats_mem (invoices : List ParsedInvoice) :
    ∀ s ∈ calculateProductStats invoices,
      s.prices ≠ []
      ∧ Sorted phLe s.prices
      ∧ s.averagePrice = listMean (s.prices.map (fun p => p.price))
      ∧ s.priceVolatilitySq = (if 0 < s.averagePrice then
          listVariance (s.prices.map (fun p => p.price)) / s.averagePrice ^ 2 * 10000
        else 0) := by
  intro s hs
  rw [calculateProductStats, List.mem_map] at hs
  obtain ⟨s₀, hs₀, rfl⟩ := hs
  rw [statsGroup_eq_upsertFold] at hs₀
  have hsk : ∀ b : ParsedLineItem × ParsedInvoice,
      (phSkel b).productNumber = b.1.productNumber := fun _ => rfl
  have hupd : ∀ (a : ProductPriceHistory) (b : ParsedLineItem × ParsedInvoice),
      (phUpd a b).productNumber = a.productNumber := fun _ _ => rfl
  obtain ⟨b, bs, hfil, heq⟩ :=
    upsertFold_mem_char (fun s => s.productNumber) (fun b => b.1.productNumber)
      phSkel phUpd hsk hupd (allItems invoices) s₀ hs₀
  have hprices : s₀.prices = (b :: bs).map pricePointOf := by
    rw [heq, foldl_phUpd_prices]
    simp [phSkel]
  have hfields := foldl_phUpd_fields (b :: bs) (phSkel b)
  have hvol0 : s₀.priceVolatilitySq = 0 := by
    rw [heq]
    exact hfields.2.1
  have hcond : ¬(s₀.prices.isEmpty = true) := by
    rw [hprices]
    simp
  have hfs : finalizeStats s₀ = { s₀ with
      prices := insertionSort phLe s₀.prices
      averagePrice := ((insertionSort phLe s₀.prices).map (fun p => p.price)).foldl (· + ·) 0
        / ((((insertionSort phLe s₀.prices).map (fun p => p.price)).length : ℚ))
      minPrice := jsMin ((insertionSort phLe s₀.prices).map (fun p => p.price))
      maxPrice := jsMax ((insertionSort phLe s₀.prices).map (fun p => p.price))
      priceVolatilitySq :=
        if 0 < ((insertionSort phLe s₀.prices).map (fun p => p.price)).foldl (· + ·) 0
            / ((((insertionSort phLe s₀.prices).map (fun p => p.price)).length : ℚ)) then
          (((insertionSort phLe s₀.prices).map (fun p => p.price)).foldl
              (fun acc p => acc + (p -
                ((insertionSort phLe s₀.prices).map (fun p => p.price)).foldl (· + ·) 0
                  / ((((insertionSort phLe s₀.prices).map (fun p => p.price)).length : ℚ))) ^ 2) 0
            / ((((insertionSort phLe s₀.prices).map (fun p => p.price)).length : ℚ)))
          / (((insertionSort phLe s₀.prices).map (fun p => p.price)).foldl (· + ·) 0
              / ((((insertionSort phLe s₀.prices).map (fun p => p.price)).length : ℚ))) ^ 2
          * 10000
        else s₀.priceVolatilitySq } := by
    rw [finalizeStats, if_neg hcond]
  rw [hfs]
  have hne : insertionSort phLe s₀.prices ≠ [] := by
    have hlen : (insertionSort phLe s₀.prices).length = s₀.prices.length :=
      length_insertionSort phLe s₀.prices
    intro hnil
    rw [hnil] at hlen
    rw [hprices] at hlen
    simp at hlen
  have hmean : ((insertionSort phLe s₀.prices).map (fun p => p.price)).foldl (· + ·) 0
      / ((((insertionSort phLe s₀.prices).map (fun p => p.price)).length : ℚ))
      = listMean ((insertionSort phLe s₀.prices).map (fun p => p.price)) := by
    rw [foldl_add_eq_sum, listMean]
  refine ⟨hne, sorted_insertionSort phLe s₀.prices, hmean, ?_⟩
  by_cases hpos : 0 < ((insertionSort phLe s₀.prices).map (fun p => p.price)).foldl (· + ·) 0
      / ((((insertionSort phLe s₀.prices).map (fun p => p.price)).length : ℚ))
  · rw [if_pos hpos, if_pos hpos]
    rw [foldl_add_sq_eq_sum, listVariance, ← hmean]
  · rw [if_neg hpos, if_neg hpos, hvol0]

/-- C2 (amended): for a product whose mean price is positive, the stored
volatility is the coefficient of variation, `stddev / mean * 100`, of its
prices (for a nonpositive mean the source leaves the volatility at 0). -/
theorem priceVolatility_cv (invoices : List ParsedInvoice) (s : ProductPriceHistory)
    (hs : s ∈ calculateProductStats invoices) (havg : 0 < s.averagePrice) :
    priceVolatilityR s =
      listStddev (s.prices.map (fun p => p.price))
        / ((listMean (s.prices.map (fun p => p.price)) : ℚ) : ℝ) * 100 := by
  obtain ⟨_, _, hmean, hvol⟩ := calculateProductStats_mem invoices s hs
  rw [priceVolatilityR, hvol, if_pos havg, hmean]
  rw [hmean] at havg
  have hm : (0 : ℝ) < ((listMean (s.prices.map (fun p => p.price)) : ℚ) : ℝ) := by
    exact_mod_cast havg
  have hv : (0 : ℝ) ≤ ((listVariance (s.prices.map (fun p => p.price)) : ℚ) : ℝ) := by
    exact_mod_cast listVariance_nonneg (s.prices.map (fun p => p.price))
  push_cast
  rw [show ((listVariance (s.prices.map (fun p => p.price)) : ℚ) : ℝ)
        / ((listMean (s.prices.map (fun p => p.price)) : ℚ) : ℝ) ^ 2 * 10000
      = ((listVariance (s.prices.map (fun p => p.price)) : ℚ) : ℝ)
        * (100 / ((listMean (s.prices.map (fun p => p.price)) : ℚ) : ℝ)) ^ 2 from by
    ring]
  rw [Real.sqrt_mul hv, Real.sqrt_sq (by positivity)]
  rw [listStddev]
  ring

/-- Product "N" at negative prices -1 then -3 (mean -2 < 0). -/
def demoNegInvs : List ParsedInvoice :=
  [demoInvoice "I1" 1 [demoItem "N" "net" (-1)], demoInvoice "I2" 2 [demoItem "N" "net" (-3)]]

/-- The statistics entry computed for `demoNegInvs`. -/
def sN : ProductPriceHistory :=
  { productNumber := "N", productDescription := "net"
    prices := [{ price := -1, date := 1, invoiceNumber := "I1" },
               { price := -3, date := 2, invoiceNumber := "I2" }]
    averagePrice := -2, minPrice := -3, maxPrice := -1, priceVolatilitySq := 0 }

theorem calculateProductStats_demoNeg : calculateProductStats demoNegInvs = [sN] := by
  norm_num [calculateProductStats, statsGroup, upsertStep, phSkel, phUpd, pricePointOf,
    finalizeStats, insertionSort, orderedInsert, phLe, jsMin, jsMax, min_def, max_def,
    demoNegInvs, demoInvoice, demoItem, sN]

/-- C2 as literally stated fails: with prices -1 and -3 the mean is -2, the
code's guard `averagePrice > 0` leaves the volatility at 0, while
`stddev / mean * 100 = -50`. -/
theorem priceVolatility_claim_counterexample :
    (calculateProductStats demoNegInvs).map priceVolatilityR ≠
      (calculateProductStats demoNegInvs).map (fun s =>
        listStddev (s.prices.map (fun p => p.price))
          / ((listMean (s.prices.map (fun p => p.price)) : ℚ) : ℝ) * 100) := by
  have hL : priceVolatilityR sN = 0 := by
    rw [priceVolatilityR]
    norm_num [sN]
  have hmean : listMean (sN.prices.map (fun p => p.price)) = -2 := by
    norm_num [sN, listMean]
  have hvar : listVariance (sN.prices.map (fun p => p.price)) = 1 := by
    norm_num [sN, listVariance, listMean]
  have hR : listStddev (sN.prices.map (fun p => p.price))
      / ((listMean (sN.prices.map (fun p => p.price)) : ℚ) : ℝ) * 100 = -50 := by
    rw [listStddev, hvar, hmean]
    norm_num
  rw [calculateProductStats_demoNeg]
  simp only [List.map_cons, List.map_nil, ne_eq, List.cons.injEq, and_true]
  rw [hL, hR]
  norm_num

/-- Product "W" at prices 1 then 3 (mean 2 > 0, coefficient of variation 50). -/
def demoPosInvs : List ParsedInvoice :=
  [demoInvoice "I1" 1 [demoItem "W" "w" 1], demoInvoice "I2" 2 [demoItem "W" "w" 3]]

/-- The statistics entry computed for `demoPosInvs`. -/
def sW : ProductPriceHistory :=
  { productNumber := "W", productDescription := "w"
    prices := [{ price := 1, date := 1, invoiceNumber := "I1" },
               { price := 3, date := 2, invoiceNumber := "I2" }]
    averagePrice := 2, minPrice := 1, maxPrice := 3, priceVolatilitySq := 2500 }

theorem calculateProductStats_demoPos : calculateProductStats demoPosInvs = [sW] := by
  norm_num [calculateProductStats, statsGroup, upsertStep, phSkel, phUpd, pricePointOf,
    finalizeStats, insertionSort, orderedInsert, phLe, jsMin, jsMax, min_def, max_def,
    demoPosInvs, demoInvoice, demoItem, sW]

/-- Witness for C2 on `demoPosInvs`. -/
theorem priceVolatility_cv_witness :
    0 < sW.averagePrice
    ∧ priceVolatilityR sW =
        listStddev (sW.prices.map (fun p => p.price))
          / ((listMean (sW.prices.map (fun p => p.price)) : ℚ) : ℝ) * 100 := by
  have hmem : sW ∈ calculateProductStats demoPosInvs := by
    rw [calculateProductStats_demoPos]
    exact List.mem_singleton.mpr rfl
  exact ⟨by norm_num [sW],
    priceVolatility_cv demoPosInvs sW hmem (by norm_num [sW])⟩

/-! ### Claims C3 and C4: the alerts emitted by `generatePriceAlerts` -/

def isSignificantAlert (a : PriceAlert) : Bool :=
  a.alertType == AlertType.significant_increase || a.alertType == AlertType.significant_decrease

def isUnusualAlert (a : PriceAlert) : Bool := a.alertType == AlertType.unusual_pricing

/-- Spec-side significant alert for one product, phrased from the claim: an
alert exactly when the latest price deviates from the mean of the prices by
more than 30%, typed by whether the latest price is above the mean, with
deviation `abs((latest - mean) / mean) * 100` and threshold 30. -/
noncomputable def specSignificantAlerts (invoices : List ParsedInvoice)
    (s : ProductPriceHistory) : List PriceAlert :=
  if 30 < |(latestPrice s - listMean (s.prices.map (fun p => p.price)))
      / listMean (s.prices.map (fun p => p.price))| * 100 then
    [{ productNumber := s.productNumber
       productDescription := findDescription invoices s.productNumber
       currentPrice := latestPrice s
       averagePrice := listMean (s.prices.map (fun p => p.price))
       deviation := ((|(latestPrice s - listMean (s.prices.map (fun p => p.price)))
         / listMean (s.prices.map (fun p => p.price))| * 100 : ℚ) : ℝ)
       alertType := if listMean (s.prices.map (fun p => p.price)) < latestPrice s then
           AlertType.significant_increase
         else AlertType.significant_decrease
       threshold := 30 }]
  else []

open Classical in
/-- Spec-side unusual-pricing alert for one product, phrased from the claim:
an alert exactly when the volatility (coefficient of variation) exceeds 25,
with the volatility as deviation and threshold 25. -/
noncomputable def specUnusualAlerts (invoices : List ParsedInvoice)
    (s : ProductPriceHistory) : List PriceAlert :=
  if 25 < priceVolatilityR s then
    [{ productNumber := s.productNumber
       productDescription := findDescription invoices s.productNumber
       currentPrice := latestPrice s
       averagePrice := s.averagePrice
       deviation := priceVolatilityR s
       alertType := AlertType.unusual_pricing
       threshold := 25 }]
  else []

/-- C3: the stored price lists are date-sorted (so the last entry is the most
recent), and the significant alerts of `generatePriceAlerts` are exactly one
alert per product whose latest price deviates from the mean of its prices by
more than 30%, typed `significant_increase` when the latest price is above
the mean and `significant_decrease` otherwise, carrying
`abs((latest - mean)/mean) * 100` as deviation and 30 as threshold. -/
theorem generatePriceAlerts_significant (invoices : List ParsedInvoice) :
    (∀ s ∈ calculateProductStats invoices, Sorted phLe s.prices)
    ∧ ((generatePriceAlerts invoices).filter isSignificantAlert ~
        (calculateProductStats invoices).flatMap (specSignificantAlerts invoices)) := by
  refine ⟨fun s hs => (calculateProductStats_mem invoices s hs).2.1, ?_⟩
  simp only [generatePriceAlerts]
  refine Perm.trans ((perm_insertionSort alertLe _).filter isSignificantAlert) ?_
  rw [List.filter_flatMap]
  rw [flatMap_congr_local _ _ _ ?_]
  intro s hs
  obtain ⟨_, _, havg, _⟩ := calculateProductStats_mem invoices s hs
  have habs : |(latestPrice s - s.averagePrice) / s.averagePrice * 100|
      = |(latestPrice s - s.averagePrice) / s.averagePrice| * 100 := by
    rw [abs_mul]
    norm_num
  rw [List.filter_append, habs, specSignificantAlerts, ← havg]
  by_cases hdev : 30 < |(latestPrice s - s.averagePrice) / s.averagePrice| * 100
  · by_cases hlt : s.averagePrice < latestPrice s
    · by_cases hvol : 625 < s.priceVolatilitySq <;>
        simp [isSignificantAlert, hdev, hlt, hvol]
    · by_cases hvol : 625 < s.priceVolatilitySq <;>
        simp [isSignificantAlert, hdev, hlt, hvol]
  · by_cases hvol : 625 < s.priceVolatilitySq <;>
      simp [isSignificantAlert, hdev, hvol]

/-- Witness for C3 on `demoNegInvs`. -/
theorem generatePriceAlerts_significant_witness :
    Sorted phLe sN.prices
    ∧ ((generatePriceAlerts demoNegInvs).filter isSignificantAlert ~
        (calculateProductStats demoNegInvs).flatMap (specSignificantAlerts demoNegInvs)) := by
  have h := generatePriceAlerts_significant demoNegInvs
  refine ⟨h.1 sN ?_, h.2⟩
  rw [calculateProductStats_demoNeg]
  exact List.mem_singleton.mpr rfl

/-- C4: the unusual-pricing alerts of `generatePriceAlerts` are exactly one
alert per product whose volatility (coefficient of variation) exceeds 25,
carrying that volatility as deviation and 25 as threshold. -/
theorem generatePriceAlerts_unusual (invoices : List ParsedInvoice) :
    (generatePriceAlerts invoices).filter isUnusualAlert ~
      (calculateProductStats invoices).flatMap (specUnusualAlerts invoices) := by
  simp only [generatePriceAlerts]
  refine Perm.trans ((perm_insertionSort alertLe _).filter isUnusualAlert) ?_
  rw [List.filter_flatMap]
  rw [flatMap_congr_local _ _ _ ?_]
  intro s _
  have hiff : 625 < s.priceVolatilitySq ↔ 25 < priceVolatilityR s := by
    rw [priceVolatilityR]
    rw [Real.lt_sqrt (by norm_num : (0 : ℝ) ≤ 25)]
    constructor
    · intro h
      have : (625 : ℝ) < ((s.priceVolatilitySq : ℚ) : ℝ) := by exact_mod_cast h
      calc (25 : ℝ) ^ 2 = 625 := by norm_num
        _ < _ := this
    · intro h
      have h' : (625 : ℝ) < ((s.priceVolatilitySq : ℚ) : ℝ) := by
        calc (625 : ℝ) = 25 ^ 2 := by norm_num
          _ < _ := h
      exact_mod_cast h'
  rw [List.filter_append, specUnusualAlerts]
  by_cases hvol : 625 < s.priceVolatilitySq
  · rw [if_pos (hiff.mp hvol)]
    by_cases hdev : 30 < |(latestPrice s - s.averagePrice) / s.averagePrice * 100| <;>
      by_cases hlt : s.averagePrice < latestPrice s <;>
        simp [isUnusualAlert, hdev, hlt, hvol]
  · rw [if_neg (fun h => hvol (hiff.mpr h))]
    by_cases hdev : 30 < |(latestPrice s - s.averagePrice) / s.averagePrice * 100| <;>
      by_cases hlt : s.averagePrice < latestPrice s <;>
        simp [isUnusualAlert, hdev, hlt, hvol]

/-! ### Claim C10: `findVolatileProducts` -/

/-- C10: `findVolatileProducts` returns at most `limit` products, each with
at least 3 price observations, sorted in non-increasing order of volatility. -/
theorem findVolatileProducts_spec (invoices : List ParsedInvoice) (limit : ℕ) :
    (findVolatileProducts invoices limit).length ≤ limit
    ∧ (∀ s ∈ findVolatileProducts invoices limit, 3 ≤ s.prices.length)
    ∧ (findVolatileProducts invoices limit).Sorted
        (fun a b => priceVolatilityR b ≤ priceVolatilityR a) := by
  refine ⟨?_, ?_, ?_⟩
  · rw [findVolatileProducts]
    exact List.length_take_le limit _
  · intro s hs
    rw [findVolatileProducts] at hs
    have hs₁ := List.take_subset _ _ hs
    rw [mem_insertionSort] at hs₁
    have hs₂ := (List.mem_filter.mp hs₁).2
    simpa using hs₂
  · rw [findVolatileProducts]
    have hsorted : Sorted volLe (insertionSort volLe
        ((calculateProductStats invoices).filter (fun stats => 3 ≤ stats.prices.length))) :=
      sorted_insertionSort volLe _
    have htake := hsorted.sublist (List.take_sublist limit _)
    refine htake.imp ?_
    intro a b hab
    exact Real.sqrt_le_sqrt (by exact_mod_cast hab)

/-- Product "V" at prices 1, 3, 2 on three dates (3 observations). -/
def demoVolInvs : List ParsedInvoice :=
  [demoInvoice "I1" 1 [demoItem "V" "v" 1], demoInvoice "I2" 2 [demoItem "V" "v" 3],
   demoInvoice "I3" 3 [demoItem "V" "v" 2]]

/-- The statistics entry computed for `demoVolInvs`. -/
def sV : ProductPriceHistory :=
  { productNumber := "V", productDescription := "v"
    prices := [{ price := 1, date := 1, invoiceNumber := "I1" },
               { price := 3, date := 2, invoiceNumber := "I2" },
               { price := 2, date := 3, invoiceNumber := "I3" }]
    averagePrice := 2, minPrice := 1, maxPrice := 3, priceVolatilitySq := 5000 / 3 }

theorem findVolatileProducts_demoVol : findVolatileProducts demoVolInvs 10 = [sV] := by
  norm_num [findVolatileProducts, calculateProductStats, statsGroup, upsertStep, phSkel,
    phUpd, pricePointOf, finalizeStats, insertionSort, orderedInsert, phLe, volLe,
    jsMin, jsMax, min_def, max_def, demoVolInvs, demoInvoice, demoItem, sV]

/-- Witness for C10 on `demoVolInvs`. -/
theorem findVolatileProducts_spec_witness :
    (findVolatileProducts demoVolInvs 10).length ≤ 10 ∧ 3 ≤ sV.prices.length := by
  have h := findVolatileProducts_spec demoVolInvs 10
  refine ⟨h.1, h.2.1 sV ?_⟩
  rw [findVolatileProducts_demoVol]
  exact List.mem_singleton.mpr rfl

/-! ### data-importer: database model (claim C7)

`importInvoicesToDatabase` writes to five Supabase tables.  The hosted
database is an external collaborator; the embedding models its state as
lists of rows and the client calls as pure state transitions.  Row ids
produced by inserts are modelled by a counter; the existence check
`select('id').eq('document_number', x).single()` is modelled as "some stored
row has this document number". -/

structure InvoiceRow where
  id : ℕ
  restaurantId : String
  documentNumber : String
  documentType : String
  documentDate : Int
  customerNumber : String
  orderNumber : String
  netAmountAfterAdjustment : ℚ
  netAmountBeforeAdjustment : ℚ
  deliveryAdjustment : ℚ
  paymentTerms : String
  dateOrdered : String
  dateShipped : String
  usfSalesLocation : String
  usfSalesRep : String
  rawData : List USRow
  deriving DecidableEq

structure LineItemRow where
  invoiceId : ℕ
  productNumber : String
  productDescription : String
  productLabel : String
  packingSize : String
  weight : ℚ
  qtyOrdered : Int
  qtyShipped : Int
  qtyAdjusted : Int
  pricingUnit : String
  unitPrice : ℚ
  extendedPrice : ℚ
  deriving DecidableEq

structure ProductMasterRow where
  productNumber : String
  description : String
  brand : Option String
  category : String
  packSize : String
  unitType : String
  deriving DecidableEq

structure PriceHistoryRow where
  productNumber : String
  restaurantId : String
  price : ℚ
  pricingUnit : String
  invoiceDate : Int
  invoiceId : ℕ
  deriving DecidableEq

structure PriceAlertRow where
  restaurantId : String
  productNumber : String
  previousPrice : ℚ
  newPrice : ℚ
  percentageChange : ℚ
  alertType : String
  invoiceDate : Int
  isRead : Bool
  deriving DecidableEq

structure Database where
  invoices : List InvoiceRow
  lineItems : List LineItemRow
  productMaster : List ProductMasterRow
  priceHistory : List PriceHistoryRow
  priceAlerts : List PriceAlertRow
  nextId : ℕ
  deriving DecidableEq

/-- The query of `checkAndCreatePriceAlert`: the latest earlier entry
(`invoice_date < d`, ordered by date descending, limit 1) of the product's
price history for this restaurant.  Among equal dates the database order is
unspecified; the embedding keeps the earliest-inserted row. -/
def previousPriceRow (rows : List PriceHistoryRow) (productNumber : String)
    (restaurantId : String) (invoiceDate : Int) : Option PriceHistoryRow :=
  (rows.filter (fun r => r.productNumber == productNumber
      && (r.restaurantId == restaurantId && decide (r.invoiceDate < invoiceDate)))).foldl
    (fun best r =>
      match best with
      | none => some r
      | some b => if b.invoiceDate < r.invoiceDate then some r else best)
    none

/-- `checkAndCreatePriceAlert` from `src/lib/data-importer.ts`: insert an
alert when the price moved at least 20% against the latest earlier price. -/
def checkAndCreatePriceAlert (productNumber : String) (currentPrice : ℚ)
    (invoiceDate : Int) (restaurantId : String) (db : Database) : Database :=
  match previousPriceRow db.priceHistory productNumber restaurantId invoiceDate with
  | none => db
  | some prev =>
    let percentageChange := (currentPrice - prev.price) / prev.price * 100
    if 20 ≤ |percentageChange| then
      { db with priceAlerts := db.priceAlerts ++
        [{ restaurantId := restaurantId
           productNumber := productNumber
           previousPrice := prev.price
           newPrice := currentPrice
           percentageChange := jsRound2 percentageChange
           alertType := if 0 < percentageChange then "increase" else "decrease"
           invoiceDate := invoiceDate
           isRead := false }] }
    else db

/-- `updateProductMasterAndPriceHistory` from `src/lib/data-importer.ts`:
per line item, insert a product-master record when the product is new, append
a price-history row, and run the alert check. -/
def updateProductMasterAndPriceHistory (inv : ParsedInvoice) (invoiceId : ℕ)
    (restaurantId : String) (db : Database) : Database :=
  inv.lineItems.foldl (fun db item =>
    let db₁ :=
      if db.productMaster.any (fun r => r.productNumber == item.productNumber) then db
      else { db with productMaster := db.productMaster ++
        [{ productNumber := item.productNumber
           description := item.productDescription
           brand := if item.productLabel = "" then none else some item.productLabel
           category := categorizeProduct item.productDescription
           packSize := item.packingSize
           unitType := item.pricingUnit }] }
    let db₂ := { db₁ with priceHistory := db₁.priceHistory ++
      [{ productNumber := item.productNumber
         restaurantId := restaurantId
         price := item.unitPrice
         pricingUnit := item.pricingUnit
         invoiceDate := inv.documentDate
         invoiceId := invoiceId }] }
    checkAndCreatePriceAlert item.productNumber item.unitPrice inv.documentDate
      restaurantId db₂) db

/-- One iteration of the invoice loop of `importInvoicesToDatabase`: skip the
invoice entirely when a stored invoice already bears its document number;
otherwise insert the invoice row and, when it has line items, the line-item
rows followed by the product-master/price-history/alert updates. -/
def importInvoiceStep (restaurantId : String) (db : Database) (inv : ParsedInvoice) :
    Database :=
  if db.invoices.any (fun r => r.documentNumber == inv.documentNumber) then db
  else
    let invoiceId := db.nextId
    let db₁ := { db with
      invoices := db.invoices ++
        [{ id := invoiceId
           restaurantId := restaurantId
           documentNumber := inv.documentNumber
           documentType := inv.documentType
           documentDate := inv.documentDate
           customerNumber := inv.customerNumber
           orderNumber := inv.orderNumber
           netAmountAfterAdjustment := inv.netAmountAfterAdjustment
           netAmountBeforeAdjustment := inv.netAmountBeforeAdjustment
           deliveryAdjustment := inv.deliveryAdjustment
           paymentTerms := inv.paymentTerms
           dateOrdered := inv.dateOrdered
           dateShipped := inv.dateShipped
           usfSalesLocation := inv.usfSalesLocation
           usfSalesRep := inv.usfSalesRep
           rawData := inv.rawData }]
      nextId := db.nextId + 1 }
    if inv.lineItems.isEmpty then db₁
    else
      let db₂ := { db₁ with lineItems := db₁.lineItems ++ inv.lineItems.map (fun item =>
        { invoiceId := invoiceId
          productNumber := item.productNumber
          productDescription := item.productDescription
          productLabel := item.productLabel
          packingSize := item.packingSize
          weight := item.weight
          qtyOrdered := item.qtyOrdered
          qtyShipped := item.qtyShipped
          qtyAdjusted := item.qtyAdjusted
          pricingUnit := item.pricingUnit
          unitPrice := item.unitPrice
          extendedPrice := item.extendedPrice }) }
      updateProductMasterAndPriceHistory inv invoiceId restaurantId db₂

/-- `importInvoicesToDatabase` from `src/lib/data-importer.ts`. -/
def importInvoicesToDatabase (invoices : List ParsedInvoice) (restaurantId : String)
    (db : Database) : Database :=
  invoices.foldl (importInvoiceStep restaurantId) db

/-- C7: an invoice whose document number already exists in the stored
invoices table is skipped entirely: processing it leaves the database state
unchanged (no invoice, line-item, product-master, price-history or alert rows
are written), and an import run starting with it behaves exactly as the run
without it. -/
theorem importInvoicesToDatabase_skips_existing (restaurantId : String) (db : Database)
    (inv : ParsedInvoice) (invoices : List ParsedInvoice)
    (hex : inv.documentNumber ∈ db.invoices.map (fun r => r.documentNumber)) :
    importInvoiceStep restaurantId db inv = db
    ∧ importInvoicesToDatabase (inv :: invoices) restaurantId db
      = importInvoicesToDatabase invoices restaurantId db := by
  have hany : db.invoices.any (fun r => r.documentNumber == inv.documentNumber) = true := by
    rw [List.any_eq_true]
    obtain ⟨r, hr, hd⟩ := List.mem_map.mp hex
    exact ⟨r, hr, by simp [hd]⟩
  have hstep : importInvoiceStep restaurantId db inv = db := by
    rw [importInvoiceStep, if_pos hany]
  constructor
  · exact hstep
  · rw [importInvoicesToDatabase, List.foldl_cons, hstep]
    rfl

def invRowW : InvoiceRow :=
  { id := 0, restaurantId := "R", documentNumber := "100", documentType := "INVOICE"
    documentDate := 1, customerNumber := "", orderNumber := ""
    netAmountAfterAdjustment := 0, netAmountBeforeAdjustment := 0, deliveryAdjustment := 0
    paymentTerms := "", dateOrdered := "", dateShipped := "", usfSalesLocation := ""
    usfSalesRep := "", rawData := [] }

def dbW : Database :=
  { invoices := [invRowW], lineItems := [], productMaster := [], priceHistory := []
    priceAlerts := [], nextId := 1 }

def invW : ParsedInvoice := demoInvoice "100" 5 [demoItem "P" "pear" 7]

/-- Witness for C7: importing an invoice whose document number is already
stored leaves the concrete database untouched. -/
theorem importInvoicesToDatabase_skips_existing_witness :
    invW.documentNumber ∈ dbW.invoices.map (fun r => r.documentNumber)
    ∧ importInvoiceStep "R" dbW invW = dbW
    ∧ importInvoicesToDatabase [invW] "R" dbW = importInvoicesToDatabase [] "R" dbW := by
  have hmem : invW.documentNumber ∈ dbW.invoices.map (fun r => r.documentNumber) := by
    rw [show dbW.invoices.map (fun r => r.documentNumber) = ["100"] from rfl]
    exact List.mem_singleton.mpr rfl
  have h := importInvoicesToDatabase_skips_existing "R" dbW invW [] hmem
  exact ⟨hmem, h.1, h.2⟩
